import Mathlib

/-!
# Power board v4 firmware: battery telemetry, buttons and the USB command dispatcher

A shallow embedding of `battery.c`, `button.c` and `pbusb.c`.  Machine integers are
natural numbers reduced modulo `2^16` or `2^32` at every place where the C code
stores into a `uint16_t` or `uint32_t`.  Globals of the firmware are the fields of
one state record; calls into drivers that live outside these three files are
recorded in a trace.
-/

namespace PowerBoard

/-! ## battery.c: sample decoding -/

/-- Decoding of a bus-voltage sample (`battery_voltage`, battery.c 38-46).  The
argument and the local `vbus` are `uint16_t`: every assignment truncates to 16 bits. -/
def battery_voltage (sample : Nat) : Nat :=
  let vbus := sample % 2 ^ 16
  let vbus := (vbus &&& 0xFFF8) % 2 ^ 16
  let vbus := (vbus >>> 1) % 2 ^ 16
  vbus

/-- Decoding of a shunt sample (`battery_current`, battery.c 48-67).  `vshunt` is a
`uint16_t`, `current` a `uint32_t`. -/
def battery_current (sample : Nat) : Nat :=
  let vshunt := sample % 2 ^ 16
  let current := (vshunt * 20) % 2 ^ 32
  if current < 800 then
    1
  else
    (current - 800) % 2 ^ 32

/-! ## Drivers outside the three files -/

/-- A block of bytes addressed by offset (`uint8_t *`). -/
abbrev Buf := Nat → Nat

/-- Modelled from the spec: `i2c.h` is not among the sources.  The completion status
of a bus transaction is one of NotYet, Ok, Error. -/
inductive i2c_stat where
  | I2C_STAT_NOTYET
  | I2C_STAT_OK
  | I2C_STAT_ERROR
  deriving DecidableEq, Repr

/-- Modelled from the spec: `i2c_error_flag` of `i2c.h` is not among the sources.  It
tells whether a completion status is the error status. -/
def i2c_error_flag : i2c_stat → Bool
  | .I2C_STAT_ERROR => true
  | _ => false

/-- Calls that leave the three files and act on the hardware. -/
inductive Call where
  | clock_isr
  | i2c_init_read (addr reg : Nat)
  | output_on (id : Int)
  | output_off (id : Int)
  | led_set (id : Int)
  | led_clear (id : Int)
  | piezo_recv (wLength : Nat) (data : Buf)

/-! ## Global state -/

/-- States of the read cycle (`batt_read_state`, battery.c 74-76). -/
inductive BattReadState where
  | BATT_PRE_CURR
  | BATT_WAIT_CURR
  | BATT_PRE_VOLT
  | BATT_WAIT_VOLT
  deriving DecidableEq, Repr

/-- The globals of battery.c, button.c and pbusb.c, and the trace of driver calls made
so far (most recent last). -/
structure State where
  batt_do_read : Bool
  batt_read_current : Nat
  batt_read_voltage : Nat
  batt_read_state : BattReadState
  read_sample : Nat
  read_flag : i2c_stat
  debounce_int : Nat
  debounce_ext : Nat
  re_enter_bootloader : Bool
  usb_data_buffer : Buf
  trace : List Call

/-- The state after static initialisation: every global holds its initialiser, or zero
when it has none. -/
def init : State where
  batt_do_read := false
  batt_read_current := 0
  batt_read_voltage := 0
  batt_read_state := .BATT_PRE_CURR
  read_sample := 0
  read_flag := .I2C_STAT_NOTYET
  debounce_int := 0
  debounce_ext := 0
  re_enter_bootloader := false
  usb_data_buffer := fun _ => 0
  trace := []

/-- Record a driver call. -/
def State.call (s : State) (c : Call) : State :=
  { s with trace := s.trace ++ [c] }

/-! ## battery.c: the sampling state machine -/

def INA219_ADDR_BATT : Nat := 0x40

def INA219_REG_VSHUNT : Nat := 1

def INA219_REG_VBUS : Nat := 2

/-- Modelled from the spec: `i2c_init_read` of `i2c.h` is not among the sources.  It
starts one non-blocking register read; the transaction is marked NotYet until the
driver reports its completion. -/
def i2c_init_read (addr reg : Nat) (s : State) : State :=
  { s.call (.i2c_init_read addr reg) with read_flag := .I2C_STAT_NOTYET }

/-- The bus driver finishes (or updates) the transaction from its interrupt: it writes
the 16-bit sample slot and the status flag it was handed by `i2c_init_read`. -/
def bus_complete (sample : Nat) (flag : i2c_stat) (s : State) : State :=
  { s with read_sample := sample % 2 ^ 16, read_flag := flag }

/-- Timer interrupt (`tim2_isr`, battery.c 81-89).  The write to the timer status
register is not modelled. -/
def tim2_isr (s : State) : State :=
  { s with batt_do_read := true }.call .clock_isr

/-- Read of the tick flag with the timer interrupt masked (battery.c 91-98). -/
def timer_triggered (s : State) : Bool :=
  s.batt_do_read

/-- Clearing of the tick flag with the timer interrupt masked (battery.c 100-106).  The
write to the timer counter is not modelled. -/
def reset_battery_timer (s : State) : State :=
  { s with batt_do_read := false }

/-- The `BATT_WAIT_CURR` arm of `battery_poll` (battery.c 122-134). -/
def battery_poll_wait_curr (s : State) : State :=
  if s.read_flag = .I2C_STAT_NOTYET then
    s
  else
    let s :=
      if !i2c_error_flag s.read_flag then
        { s with batt_read_current := battery_current s.read_sample }
      else
        { s with batt_read_current := 0 }
    { s with batt_read_state := .BATT_PRE_VOLT }

/-- The `BATT_WAIT_VOLT` arm of `battery_poll` (battery.c 145-157). -/
def battery_poll_wait_volt (s : State) : State :=
  if s.read_flag = .I2C_STAT_NOTYET then
    s
  else
    let s :=
      if !i2c_error_flag s.read_flag then
        { s with batt_read_voltage := battery_voltage s.read_sample }
      else
        { s with batt_read_voltage := 0 }
    { s with batt_read_state := .BATT_PRE_CURR }

/-- One call of `battery_poll` (battery.c 108-161).  The two `PRE` arms fall through
into the `WAIT` arm that follows them. -/
def battery_poll (s : State) : State :=
  match s.batt_read_state with
  | .BATT_PRE_CURR =>
    if !timer_triggered s then
      s
    else
      let s := reset_battery_timer s
      let s := i2c_init_read INA219_ADDR_BATT INA219_REG_VSHUNT s
      let s := { s with batt_read_state := .BATT_WAIT_CURR }
      battery_poll_wait_curr s
  | .BATT_WAIT_CURR => battery_poll_wait_curr s
  | .BATT_PRE_VOLT =>
    if !timer_triggered s then
      s
    else
      let s := reset_battery_timer s
      let s := i2c_init_read INA219_ADDR_BATT INA219_REG_VBUS s
      let s := { s with batt_read_state := .BATT_WAIT_VOLT }
      battery_poll_wait_volt s
  | .BATT_WAIT_VOLT => battery_poll_wait_volt s

/-- Accessor `read_battery_voltage` (battery.c 164-167): its return type is `uint16_t`. -/
def read_battery_voltage (s : State) : Nat :=
  s.batt_read_voltage % 2 ^ 16

/-- Accessor `read_battery_current` (battery.c 169-172). -/
def read_battery_current (s : State) : Nat :=
  s.batt_read_current

/-- What can happen to the telemetry between two USB requests. -/
inductive Event where
  | tick
  | bus (sample : Nat) (flag : i2c_stat)
  | poll

/-- Effect of one telemetry event. -/
def Event.apply (s : State) : Event → State
  | .tick => tim2_isr s
  | .bus sample flag => bus_complete sample flag s
  | .poll => battery_poll s

/-- Effect of a sequence of telemetry events, oldest first. -/
def runEvents (s : State) (es : List Event) : State :=
  es.foldl Event.apply s

/-! ## button.c -/

/-- One call of `button_poll` (button.c 50-65); the two arguments are the levels read
from the internal and the external button pin. -/
def button_poll (int_read ext_read : Bool) (s : State) : State :=
  let internal : Nat := if int_read then 0 else 1
  let external : Nat := if ext_read then 0 else 1
  let di := (s.debounce_int <<< 1) % 2 ^ 32
  let de := (s.debounce_ext <<< 1) % 2 ^ 32
  { s with debounce_int := (di ||| internal) % 2 ^ 32,
           debounce_ext := (de ||| external) % 2 ^ 32 }

/-- Debounced button state (`button_pressed`, button.c 67-73). -/
def button_pressed (s : State) : Bool :=
  if s.debounce_int = 0xFFFFFFFF ∨ s.debounce_ext = 0xFFFFFFFF then
    true
  else
    false

/-! ## pbusb.c: declarations taken from headers -/

/-- Return codes of a control callback (`enum usbd_request_return_codes` of libopencm3). -/
inductive usbd_request_return_codes where
  | USBD_REQ_NOTSUPP
  | USBD_REQ_HANDLED
  | USBD_REQ_NEXT_CALLBACK
  deriving DecidableEq, Repr

open usbd_request_return_codes

/-- Setup packet of a control transfer (`struct usb_setup_data`): two 8-bit and three
16-bit fields. -/
structure usb_setup_data where
  bmRequestType : Nat
  bRequest : Nat
  wValue : Nat
  wIndex : Nat
  wLength : Nat

/-- Direction bit of `bmRequestType` (libopencm3 `usbstd.h`, USB 2.0 table 9-2). -/
def USB_REQ_TYPE_IN : Nat := 0x80

/-- Type field value "standard" of `bmRequestType`. -/
def USB_REQ_TYPE_STANDARD : Nat := 0x00

/-- Type field value "class" of `bmRequestType`. -/
def USB_REQ_TYPE_CLASS : Nat := 0x20

/-- Mask of the type field of `bmRequestType`. -/
def USB_REQ_TYPE_TYPE : Nat := 0x60

/-- Recipient field value "device" of `bmRequestType`. -/
def USB_REQ_TYPE_DEVICE : Nat := 0x00

/-- Recipient field value "interface" of `bmRequestType`. -/
def USB_REQ_TYPE_INTERFACE : Nat := 0x01

/-- Mask of the recipient field of `bmRequestType`. -/
def USB_REQ_TYPE_RECIPIENT : Nat := 0x1F

/-- Standard request code SET_INTERFACE (USB 2.0 table 9-4). -/
def USB_REQ_SET_INTERFACE : Nat := 11

/-- DFU class request code DETACH (libopencm3 `dfu.h`, DFU 1.1 table 3.2). -/
def DFU_DETACH : Nat := 0

/-- DFU class request code GETSTATUS. -/
def DFU_GETSTATUS : Nat := 3

/-- DFU state code appIDLE (`enum dfu_state` of libopencm3 `dfu.h`). -/
def STATE_APP_IDLE : Nat := 0

/-- Declarations of this firmware's own headers (`usb.h`, `led.h`, `output.h`,
`piezo.h`, the build's `FW_VER`) that are not among the sources: the command
selectors, the LED identifiers, the firmware version, the current-sense read-out of
an output and the verdict of the piezo driver on a payload. -/
structure Env where
  POWERBOARD_READ_OUTPUT0 : Nat
  POWERBOARD_READ_OUTPUT1 : Nat
  POWERBOARD_READ_OUTPUT2 : Nat
  POWERBOARD_READ_OUTPUT3 : Nat
  POWERBOARD_READ_OUTPUT4 : Nat
  POWERBOARD_READ_OUTPUT5 : Nat
  POWERBOARD_READ_5VRAIL : Nat
  POWERBOARD_READ_BATT : Nat
  POWERBOARD_READ_BUTTON : Nat
  POWERBOARD_READ_FWVER : Nat
  POWERBOARD_WRITE_OUTPUT0 : Nat
  POWERBOARD_WRITE_OUTPUT1 : Nat
  POWERBOARD_WRITE_OUTPUT2 : Nat
  POWERBOARD_WRITE_OUTPUT3 : Nat
  POWERBOARD_WRITE_OUTPUT4 : Nat
  POWERBOARD_WRITE_OUTPUT5 : Nat
  POWERBOARD_WRITE_RUNLED : Nat
  POWERBOARD_WRITE_ERRORLED : Nat
  POWERBOARD_WRITE_PIEZO : Nat
  LED_RUN : Int
  LED_ERROR : Int
  FW_VER : Nat
  current_sense_read : Int → Nat
  piezo_recv : Nat → Buf → Bool

/-- Case labels of the switch in `handle_read_req`, in source order. -/
def Env.readLabels (env : Env) : List Nat :=
  [env.POWERBOARD_READ_OUTPUT0, env.POWERBOARD_READ_OUTPUT1, env.POWERBOARD_READ_OUTPUT2,
   env.POWERBOARD_READ_OUTPUT3, env.POWERBOARD_READ_OUTPUT4, env.POWERBOARD_READ_OUTPUT5,
   env.POWERBOARD_READ_5VRAIL, env.POWERBOARD_READ_BATT, env.POWERBOARD_READ_BUTTON,
   env.POWERBOARD_READ_FWVER]

/-- Case labels of the switch in `handle_write_req`, in source order. -/
def Env.writeLabels (env : Env) : List Nat :=
  [env.POWERBOARD_WRITE_OUTPUT0, env.POWERBOARD_WRITE_OUTPUT1, env.POWERBOARD_WRITE_OUTPUT2,
   env.POWERBOARD_WRITE_OUTPUT3, env.POWERBOARD_WRITE_OUTPUT4, env.POWERBOARD_WRITE_OUTPUT5,
   env.POWERBOARD_WRITE_RUNLED, env.POWERBOARD_WRITE_ERRORLED, env.POWERBOARD_WRITE_PIEZO]

/-- A C switch only compiles when its case labels are pairwise different. -/
def Env.WellFormed (env : Env) : Prop :=
  env.readLabels.Nodup ∧ env.writeLabels.Nodup

instance (env : Env) : Decidable env.WellFormed := by
  unfold Env.WellFormed
  infer_instance

/-- Selector of the write command for output `i` (0 to 5). -/
def Env.writeOutputLabel (env : Env) (i : Nat) : Nat :=
  env.writeLabels.getD i 0

/-- One instantiation of the header declarations: selectors numbered in source order,
no current drawn on any output, a piezo driver that accepts every payload. -/
def sampleEnv : Env where
  POWERBOARD_READ_OUTPUT0 := 0
  POWERBOARD_READ_OUTPUT1 := 1
  POWERBOARD_READ_OUTPUT2 := 2
  POWERBOARD_READ_OUTPUT3 := 3
  POWERBOARD_READ_OUTPUT4 := 4
  POWERBOARD_READ_OUTPUT5 := 5
  POWERBOARD_READ_5VRAIL := 6
  POWERBOARD_READ_BATT := 7
  POWERBOARD_READ_BUTTON := 8
  POWERBOARD_READ_FWVER := 9
  POWERBOARD_WRITE_OUTPUT0 := 0
  POWERBOARD_WRITE_OUTPUT1 := 1
  POWERBOARD_WRITE_OUTPUT2 := 2
  POWERBOARD_WRITE_OUTPUT3 := 3
  POWERBOARD_WRITE_OUTPUT4 := 4
  POWERBOARD_WRITE_OUTPUT5 := 5
  POWERBOARD_WRITE_RUNLED := 6
  POWERBOARD_WRITE_ERRORLED := 7
  POWERBOARD_WRITE_PIEZO := 8
  LED_RUN := 0
  LED_ERROR := 1
  FW_VER := 1
  current_sense_read := fun _ => 0
  piezo_recv := fun _ _ => false

/-! ## pbusb.c: the command dispatcher -/

/-- Store of a `uint32_t` through a pointer into a byte buffer at offset `off`; the
Cortex-M3 stores the least significant byte first. -/
def store32 (buf : Buf) (off v : Nat) : Buf := fun i =>
  if i = off then v % 256
  else if i = off + 1 then v / 256 % 256
  else if i = off + 2 then v / 65536 % 256
  else if i = off + 3 then v / 16777216 % 256
  else buf i

/-- The 32-bit word held in four bytes of a buffer from offset `off`. -/
def load32 (buf : Buf) (off : Nat) : Nat :=
  buf off + 256 * buf (off + 1) + 65536 * buf (off + 2) + 16777216 * buf (off + 3)

/-- Outcome of a read handler: the return code and the values left in `*len`, `*buf`. -/
structure ReadOut where
  result : usbd_request_return_codes
  len : Int
  buf : Buf

/-- Outcome of the write handler: the return code and the state it leaves. -/
structure WriteOut where
  result : usbd_request_return_codes
  state : State

/-- Outcome of a control callback: the return code, the state it leaves and the values
left in `*len`, `*buf`. -/
structure CtrlOut where
  result : usbd_request_return_codes
  state : State
  len : Nat
  buf : Buf

/-- Current-sense read of one output (`read_output`, pbusb.c 90-100). -/
def read_output (env : Env) (len : Int) (buf : Buf) (output : Int) : ReadOut :=
  if len < 4 then
    ⟨USBD_REQ_NOTSUPP, len, buf⟩
  else
    ⟨USBD_REQ_HANDLED, 4, store32 buf 0 (env.current_sense_read output % 2 ^ 32)⟩

/-- Read commands (`handle_read_req`, pbusb.c 102-175); `len` and `buf` are the values
of `*len` and `*buf` on entry.  The body of the 5V rail case between `#if 0` and
`#endif` is not compiled. -/
def handle_read_req (env : Env) (s : State) (req : usb_setup_data) (len : Int) (buf : Buf) :
    ReadOut :=
  if req.wIndex = env.POWERBOARD_READ_OUTPUT0 then read_output env len buf 0
  else if req.wIndex = env.POWERBOARD_READ_OUTPUT1 then read_output env len buf 1
  else if req.wIndex = env.POWERBOARD_READ_OUTPUT2 then read_output env len buf 2
  else if req.wIndex = env.POWERBOARD_READ_OUTPUT3 then read_output env len buf 3
  else if req.wIndex = env.POWERBOARD_READ_OUTPUT4 then read_output env len buf 4
  else if req.wIndex = env.POWERBOARD_READ_OUTPUT5 then read_output env len buf 5
  else if req.wIndex = env.POWERBOARD_READ_5VRAIL then
    if len < 4 then
      ⟨USBD_REQ_NOTSUPP, len, buf⟩
    else
      ⟨USBD_REQ_HANDLED, 4, buf⟩
  else if req.wIndex = env.POWERBOARD_READ_BATT then
    if len < 8 then
      ⟨USBD_REQ_NOTSUPP, len, buf⟩
    else
      let buf := store32 buf 0 (read_battery_current s % 2 ^ 32)
      let buf := store32 buf 4 (read_battery_voltage s % 2 ^ 32)
      ⟨USBD_REQ_HANDLED, 8, buf⟩
  else if req.wIndex = env.POWERBOARD_READ_BUTTON then
    if len < 4 then
      ⟨USBD_REQ_NOTSUPP, len, buf⟩
    else
      ⟨USBD_REQ_HANDLED, 4, store32 buf 0 (if button_pressed s then 1 else 0)⟩
  else if req.wIndex = env.POWERBOARD_READ_FWVER then
    if len < 4 then
      ⟨USBD_REQ_NOTSUPP, len, buf⟩
    else
      ⟨USBD_REQ_HANDLED, 4, store32 buf 0 (env.FW_VER % 2 ^ 32)⟩
  else
    ⟨USBD_REQ_NOTSUPP, len, buf⟩

/-- Switching of an output (`write_output`, pbusb.c 177-187); `param` is a `uint16_t`. -/
def write_output (id : Int) (param : Nat) (s : State) : State :=
  if param % 2 ^ 16 = 0 then
    s.call (.output_off id)
  else
    s.call (.output_on id)

/-- Switching of an LED (`write_led`, pbusb.c 189-199); `param` is a `uint16_t`. -/
def write_led (id : Int) (param : Nat) (s : State) : State :=
  if param % 2 ^ 16 = 0 then
    s.call (.led_clear id)
  else
    s.call (.led_set id)

/-- Write commands (`handle_write_req`, pbusb.c 201-230).  The piezo case falls through
into `default` when `piezo_recv` returns true. -/
def handle_write_req (env : Env) (s : State) (req : usb_setup_data) : WriteOut :=
  if req.wIndex = env.POWERBOARD_WRITE_OUTPUT0 then
    ⟨USBD_REQ_HANDLED, write_output 0 req.wValue s⟩
  else if req.wIndex = env.POWERBOARD_WRITE_OUTPUT1 then
    ⟨USBD_REQ_HANDLED, write_output 1 req.wValue s⟩
  else if req.wIndex = env.POWERBOARD_WRITE_OUTPUT2 then
    ⟨USBD_REQ_HANDLED, write_output 2 req.wValue s⟩
  else if req.wIndex = env.POWERBOARD_WRITE_OUTPUT3 then
    ⟨USBD_REQ_HANDLED, write_output 3 req.wValue s⟩
  else if req.wIndex = env.POWERBOARD_WRITE_OUTPUT4 then
    ⟨USBD_REQ_HANDLED, write_output 4 req.wValue s⟩
  else if req.wIndex = env.POWERBOARD_WRITE_OUTPUT5 then
    ⟨USBD_REQ_HANDLED, write_output 5 req.wValue s⟩
  else if req.wIndex = env.POWERBOARD_WRITE_RUNLED then
    ⟨USBD_REQ_HANDLED, write_led env.LED_RUN req.wValue s⟩
  else if req.wIndex = env.POWERBOARD_WRITE_ERRORLED then
    ⟨USBD_REQ_HANDLED, write_led env.LED_ERROR req.wValue s⟩
  else if req.wIndex = env.POWERBOARD_WRITE_PIEZO then
    let s1 := s.call (.piezo_recv req.wLength s.usb_data_buffer)
    if !env.piezo_recv req.wLength s.usb_data_buffer then
      ⟨USBD_REQ_HANDLED, s1⟩
    else
      ⟨USBD_REQ_NOTSUPP, s1⟩
  else
    ⟨USBD_REQ_NOTSUPP, s⟩

/-- Vendor request callback (`control`, pbusb.c 232-251).  `*len` is a `uint16_t` here
and an `int` in `handle_read_req`: the value is handed over unchanged and the value
left by the read handler is stored back in 16 bits. -/
def control (env : Env) (s : State) (req : usb_setup_data) (len : Nat) (buf : Buf) :
    CtrlOut :=
  if req.bRequest ≠ 64 then
    ⟨USBD_REQ_NEXT_CALLBACK, s, len, buf⟩
  else if req.bmRequestType &&& USB_REQ_TYPE_IN ≠ 0 then
    let r := handle_read_req env s req (len : Int) buf
    ⟨r.result, s, r.len.toNat % 2 ^ 16, r.buf⟩
  else
    let w := handle_write_req env s req
    ⟨w.result, w.state, len, buf⟩

/-- Write of one byte into a buffer (`(*buf)[i] = v`). -/
def store8 (buf : Buf) (i v : Nat) : Buf := fun j =>
  if j = i then v % 256 else buf j

/-- Interface callback (`iface_control`, pbusb.c 253-292). -/
def iface_control (s : State) (req : usb_setup_data) (len : Nat) (buf : Buf) : CtrlOut :=
  if req.bmRequestType = (USB_REQ_TYPE_STANDARD ||| USB_REQ_TYPE_INTERFACE)
      ∧ req.bRequest = USB_REQ_SET_INTERFACE ∧ req.wValue = 0 ∧ req.wIndex = 0 then
    ⟨USBD_REQ_HANDLED, s, len, buf⟩
  else if (req.bmRequestType &&& (USB_REQ_TYPE_TYPE ||| USB_REQ_TYPE_RECIPIENT))
      = (USB_REQ_TYPE_CLASS ||| USB_REQ_TYPE_INTERFACE) then
    if req.bRequest = DFU_GETSTATUS then
      let buf := store8 buf 0 STATE_APP_IDLE
      let buf := store8 buf 1 100
      let buf := store8 buf 2 0
      let buf := store8 buf 3 0
      let buf := store8 buf 4 STATE_APP_IDLE
      let buf := store8 buf 5 0
      ⟨USBD_REQ_HANDLED, s, 6, buf⟩
    else if req.bRequest = DFU_DETACH then
      ⟨USBD_REQ_HANDLED, { s with re_enter_bootloader := true }, len, buf⟩
    else
      ⟨USBD_REQ_NOTSUPP, s, len, buf⟩
  else
    ⟨USBD_REQ_NOTSUPP, s, len, buf⟩

/-- A request handed to one of the two callbacks, with the values of `*len` and `*buf`
it is handed. -/
inductive Delivery where
  | control (req : usb_setup_data) (len : Nat) (buf : Buf)
  | iface_control (req : usb_setup_data) (len : Nat) (buf : Buf)

/-- Setup packet of a delivery. -/
def Delivery.req : Delivery → usb_setup_data
  | .control req _ _ => req
  | .iface_control req _ _ => req

/-- Filters under which `set_config_cb` registers the callbacks (pbusb.c 294-323):
`control` for the device recipient with the standard type, `iface_control` for the
interface recipient with the standard or the class type; the mask is type and
recipient in each case. -/
def Delivery.Registered : Delivery → Prop
  | .control req _ _ =>
    (req.bmRequestType &&& (USB_REQ_TYPE_TYPE ||| USB_REQ_TYPE_RECIPIENT)) = USB_REQ_TYPE_DEVICE
  | .iface_control req _ _ =>
    (req.bmRequestType &&& (USB_REQ_TYPE_TYPE ||| USB_REQ_TYPE_RECIPIENT))
        = (USB_REQ_TYPE_STANDARD ||| USB_REQ_TYPE_INTERFACE)
      ∨ (req.bmRequestType &&& (USB_REQ_TYPE_TYPE ||| USB_REQ_TYPE_RECIPIENT))
        = (USB_REQ_TYPE_CLASS ||| USB_REQ_TYPE_INTERFACE)

/-- Outcome of a delivery. -/
def Delivery.out (env : Env) (s : State) : Delivery → CtrlOut
  | .control req len buf => PowerBoard.control env s req len buf
  | .iface_control req len buf => PowerBoard.iface_control s req len buf

/-- State after a sequence of deliveries, oldest first. -/
def runDeliveries (env : Env) (s : State) (ds : List Delivery) : State :=
  ds.foldl (fun st d => (d.out env st).state) s

/-- A class-type request to the interface recipient with request code DETACH. -/
def isDetach (req : usb_setup_data) : Prop :=
  (req.bmRequestType &&& (USB_REQ_TYPE_TYPE ||| USB_REQ_TYPE_RECIPIENT))
      = (USB_REQ_TYPE_CLASS ||| USB_REQ_TYPE_INTERFACE)
    ∧ req.bRequest = DFU_DETACH

/-! ## Observers used in the statements about the read cycle -/

/-- Number of bus reads started so far: the `i2c_init_read` calls in a trace. -/
def busStarts : List Call → Nat
  | [] => 0
  | .i2c_init_read _ _ :: cs => busStarts cs + 1
  | _ :: cs => busStarts cs

/-- Successor of a read state in the cycle current tick, current wait, voltage tick,
voltage wait. -/
def BattReadState.next : BattReadState → BattReadState
  | .BATT_PRE_CURR => .BATT_WAIT_CURR
  | .BATT_WAIT_CURR => .BATT_PRE_VOLT
  | .BATT_PRE_VOLT => .BATT_WAIT_VOLT
  | .BATT_WAIT_VOLT => .BATT_PRE_CURR

/-- The two states that wait for a timer tick. -/
def BattReadState.awaitsTick : BattReadState → Bool
  | .BATT_PRE_CURR => true
  | .BATT_PRE_VOLT => true
  | _ => false

/-- Register read by the bus transaction that an await state starts. -/
def BattReadState.register : BattReadState → Nat
  | .BATT_PRE_CURR => INA219_REG_VSHUNT
  | .BATT_WAIT_CURR => INA219_REG_VSHUNT
  | .BATT_PRE_VOLT => INA219_REG_VBUS
  | .BATT_WAIT_VOLT => INA219_REG_VBUS

/-- A transaction is outstanding when a bus read has been started and its status is
still NotYet. -/
def Outstanding (s : State) : Prop :=
  0 < busStarts s.trace ∧ s.read_flag = .I2C_STAT_NOTYET

/-- An event of the telemetry that is not a bus event reporting NotYet: a bus
completion reports Ok or Error. -/
def Event.Completes : Event → Prop
  | .bus _ flag => flag ≠ .I2C_STAT_NOTYET
  | _ => True

/-- An event other than the timer interrupt. -/
def Event.NoTick : Event → Prop
  | .tick => False
  | _ => True

/-- A sequence of `button_poll` calls, oldest first; each entry holds the levels read
from the internal and the external pin. -/
def button_polls (s : State) (ps : List (Bool × Bool)) : State :=
  ps.foldl (fun st p => button_poll p.1 p.2 st) s

/-- The sample header declarations with a piezo driver that refuses every payload. -/
def refusingEnv : Env :=
  { sampleEnv with piezo_recv := fun _ _ => true }

/-- A standard request to the interface recipient, with no other bit set in
`bmRequestType`, that selects alternate setting 0 of interface 0. -/
def isSetInterface (req : usb_setup_data) : Prop :=
  req.bmRequestType = (USB_REQ_TYPE_STANDARD ||| USB_REQ_TYPE_INTERFACE)
    ∧ req.bRequest = USB_REQ_SET_INTERFACE ∧ req.wValue = 0 ∧ req.wIndex = 0

/-- A class-type request to the interface recipient with request code GETSTATUS. -/
def isGetStatus (req : usb_setup_data) : Prop :=
  (req.bmRequestType &&& (USB_REQ_TYPE_TYPE ||| USB_REQ_TYPE_RECIPIENT))
      = (USB_REQ_TYPE_CLASS ||| USB_REQ_TYPE_INTERFACE)
    ∧ req.bRequest = DFU_GETSTATUS

instance (req : usb_setup_data) : Decidable (isSetInterface req) := by
  unfold isSetInterface
  infer_instance

instance (req : usb_setup_data) : Decidable (isGetStatus req) := by
  unfold isGetStatus
  infer_instance

/-- The end-to-end scenario: a tick, a completed read of the current register with raw
sample 100, a second tick, a completed read of the voltage register with raw sample
`0x07`, with `battery_poll` called after each event. -/
def scenario : List Event :=
  [.tick, .poll, .bus 100 .I2C_STAT_OK, .poll, .tick, .poll, .bus 0x07 .I2C_STAT_OK, .poll]

instance (s : State) : Decidable (Outstanding s) := by
  unfold Outstanding
  infer_instance

instance (e : Event) : Decidable e.Completes := by
  cases e <;> unfold Event.Completes <;> infer_instance

instance (e : Event) : Decidable e.NoTick := by
  cases e <;> unfold Event.NoTick <;> infer_instance

/-- What a stalled write request may have done to the state `s`: nothing, or the one
`piezo_recv` call whose payload the piezo driver refused. -/
def StalledWrite (env : Env) (s : State) (req : usb_setup_data) (t : State) : Prop :=
  t = s
    ∨ (env.piezo_recv req.wLength s.usb_data_buffer = true
        ∧ t = s.call (Call.piezo_recv req.wLength s.usb_data_buffer))

/-- History of the internal button over a sequence of polls, most recent poll first;
`true` stands for pressed, which is the low level of the pin. -/
def pressedInt (ps : List (Bool × Bool)) : List Bool :=
  ps.reverse.map (fun p => !p.1)

/-- History of the external button over a sequence of polls, most recent poll first. -/
def pressedExt (ps : List (Bool × Bool)) : List Bool :=
  ps.reverse.map (fun p => !p.2)

/-- The state `t` differs from `s` at most by driver calls added to the trace. -/
def TraceExtends (s t : State) : Prop :=
  ∃ cs : List Call, t = { s with trace := s.trace ++ cs }

/-- The published readings fit their C types: the current a `uint32_t`, the voltage
the `uint16_t` that `battery_voltage` returns. -/
def ReadingsInRange (s : State) : Prop :=
  s.batt_read_current < 2 ^ 32 ∧ s.batt_read_voltage < 2 ^ 16

instance (req : usb_setup_data) : Decidable (isDetach req) := by
  unfold isDetach
  infer_instance

instance (d : Delivery) : Decidable d.Registered := by
  cases d <;> unfold Delivery.Registered <;> infer_instance

/-! ## Theorems -/

/-- Masking with `0xFFF8` and shifting right by one keeps exactly the bits of the
sample from position 3 upwards, moved down by one place. -/
theorem testBit_mask_shift (x i : Nat) :
    ((x &&& 0xFFF8) >>> 1).testBit i
      = (x.testBit (i + 1) && decide (3 ≤ i + 1) && decide (i + 1 < 16)) := by
  rw [Nat.testBit_shiftRight, Nat.testBit_and]
  by_cases h16 : 1 + i < 16
  · have hi : i < 15 := by omega
    have h1 : 1 + i = i + 1 := by omega
    rw [h1]
    interval_cases i <;> simp <;> intro _ <;> decide
  · have h1 : 1 + i = i + 1 := by omega
    rw [h1]
    have : Nat.testBit 0xFFF8 (i + 1) = false := by
      apply Nat.testBit_lt_two_pow
      calc (0xFFF8 : Nat) < 2 ^ 16 := by norm_num
        _ ≤ 2 ^ (i + 1) := Nat.pow_le_pow_right (by norm_num) (by omega)
    simp [this]
    omega

/-- On a 16-bit sample none of the three truncations of `battery_voltage` cuts
anything off. -/
theorem battery_voltage_eq (x : Nat) (hx : x < 2 ^ 16) :
    battery_voltage x = (x &&& 0xFFF8) >>> 1 := by
  have hand : x &&& 0xFFF8 ≤ x := Nat.and_le_left
  have hshift : (x &&& 0xFFF8) >>> 1 ≤ x &&& 0xFFF8 := by
    rw [Nat.shiftRight_eq_div_pow]
    exact Nat.div_le_self _ _
  unfold battery_voltage
  simp only []
  rw [Nat.mod_eq_of_lt hx, Nat.mod_eq_of_lt (by omega), Nat.mod_eq_of_lt (by omega)]

/-- C1: for every 16-bit raw sample `battery_voltage` is the sample masked with
`0xFFF8` and shifted right by one, and a second 16-bit sample that agrees with it in
every bit from position 3 upwards (differs only in the low 3 bits) decodes to the
same voltage. -/
theorem battery_voltage_mask_shift (raw : Nat) (hraw : raw < 2 ^ 16) :
    battery_voltage raw = (raw &&& 0xFFF8) >>> 1
      ∧ ∀ other : Nat, other < 2 ^ 16 →
          (∀ i : Nat, 3 ≤ i → other.testBit i = raw.testBit i) →
          battery_voltage other = battery_voltage raw := by
  refine ⟨battery_voltage_eq raw hraw, ?_⟩
  intro other hother hbits
  rw [battery_voltage_eq raw hraw, battery_voltage_eq other hother]
  apply Nat.eq_of_testBit_eq
  intro i
  rw [testBit_mask_shift, testBit_mask_shift]
  by_cases h3 : 3 ≤ i + 1
  · rw [hbits (i + 1) h3]
  · simp [h3]

/-- Witness of C1 at the samples `0x07` and `0`, which differ in the low three bits
only. -/
theorem battery_voltage_mask_shift_witness :
    battery_voltage 0x07 = (0x07 &&& 0xFFF8) >>> 1 ∧ battery_voltage 0 = battery_voltage 0x07 :=
  ⟨(battery_voltage_mask_shift 0x07 (by decide)).1,
   (battery_voltage_mask_shift 0x07 (by decide)).2 0 (by decide) (by
      intro i hi
      rw [Nat.zero_testBit]
      symm
      apply Nat.testBit_lt_two_pow
      calc (0x07 : Nat) < 2 ^ 3 := by decide
        _ ≤ 2 ^ i := Nat.pow_le_pow_right (by decide) hi)⟩

/-- C2: the 16-bit shunt sample 40 scales to exactly 800, the calibration offset; the
branch that clamps to 1 is not taken and `battery_current` returns 0, which is below 1
and differs from `max 1 (20 * 40 - 800)`. -/
theorem battery_current_at_offset :
    (40 : Nat) < 2 ^ 16 ∧ 800 ≤ 20 * 40 ∧ battery_current 40 = 0
      ∧ battery_current 40 ≠ max 1 (20 * 40 - 800) ∧ ¬ (1 ≤ battery_current 40) := by
  decide

/-- C3: the samples 39 and 40 are in order and their decoded currents, 1 and 0, are
not. -/
theorem battery_current_drops_at_offset :
    (39 : Nat) ≤ 40 ∧ (40 : Nat) < 2 ^ 16 ∧ battery_current 39 = 1 ∧ battery_current 40 = 0
      ∧ ¬ (battery_current 39 ≤ battery_current 40) := by
  decide

/-! ### Telemetry invariant and the battery read command -/

theorem battery_current_lt (x : Nat) : battery_current x < 2 ^ 32 := by
  unfold battery_current
  simp only []
  split
  · norm_num
  · exact Nat.mod_lt _ (by norm_num)

theorem battery_voltage_lt (x : Nat) : battery_voltage x < 2 ^ 16 := by
  unfold battery_voltage
  exact Nat.mod_lt _ (by norm_num)

theorem battery_poll_wait_curr_inRange (s : State) (h : ReadingsInRange s) :
    ReadingsInRange (battery_poll_wait_curr s) := by
  unfold battery_poll_wait_curr
  obtain ⟨hc, hv⟩ := h
  split
  · exact ⟨hc, hv⟩
  · split
    · exact ⟨battery_current_lt _, hv⟩
    · exact ⟨by norm_num, hv⟩

theorem battery_poll_wait_volt_inRange (s : State) (h : ReadingsInRange s) :
    ReadingsInRange (battery_poll_wait_volt s) := by
  unfold battery_poll_wait_volt
  obtain ⟨hc, hv⟩ := h
  split
  · exact ⟨hc, hv⟩
  · split
    · exact ⟨hc, battery_voltage_lt _⟩
    · exact ⟨hc, by norm_num⟩

theorem battery_poll_inRange (s : State) (h : ReadingsInRange s) :
    ReadingsInRange (battery_poll s) := by
  unfold battery_poll
  split
  · split
    · exact h
    · exact battery_poll_wait_curr_inRange _ h
  · exact battery_poll_wait_curr_inRange _ h
  · split
    · exact h
    · exact battery_poll_wait_volt_inRange _ h
  · exact battery_poll_wait_volt_inRange _ h

theorem event_inRange (s : State) (e : Event) (h : ReadingsInRange s) :
    ReadingsInRange (e.apply s) := by
  cases e with
  | tick => exact h
  | bus sample flag => exact h
  | poll => exact battery_poll_inRange s h

theorem runEvents_inRange (es : List Event) (s : State) (h : ReadingsInRange s) :
    ReadingsInRange (runEvents s es) := by
  induction es generalizing s with
  | nil => exact h
  | cons e es ih => exact ih (e.apply s) (event_inRange s e h)

theorem init_inRange : ReadingsInRange init := by
  constructor <;> simp [init]

/-- A stored 32-bit word is read back unchanged. -/
theorem load32_store32 (buf : Buf) (off v : Nat) (hv : v < 2 ^ 32) :
    load32 (store32 buf off v) off = v := by
  unfold load32 store32
  simp
  omega

/-- A store at offset 4 leaves the word at offset 0 alone. -/
theorem load32_store32_four (buf : Buf) (v : Nat) :
    load32 (store32 buf 4 v) 0 = load32 buf 0 := by
  unfold load32 store32
  simp

/-- The battery case of the switch in `handle_read_req`, reached when the selector is
`POWERBOARD_READ_BATT`. -/
theorem handle_read_req_batt (env : Env) (hwf : env.WellFormed) (s : State)
    (req : usb_setup_data) (hsel : req.wIndex = env.POWERBOARD_READ_BATT)
    (len : Int) (buf : Buf) :
    handle_read_req env s req len buf
      = if len < 8 then ⟨USBD_REQ_NOTSUPP, len, buf⟩
        else ⟨USBD_REQ_HANDLED, 8,
          store32 (store32 buf 0 (read_battery_current s % 2 ^ 32)) 4
            (read_battery_voltage s % 2 ^ 32)⟩ := by
  have hnd := hwf.1
  simp only [Env.readLabels, List.nodup_cons, List.mem_cons, List.mem_singleton,
    not_or] at hnd
  obtain ⟨⟨-, -, -, -, -, -, h0, -⟩, ⟨-, -, -, -, -, h1, -⟩, ⟨-, -, -, -, h2, -⟩,
    ⟨-, -, -, h3, -⟩, ⟨-, -, h4, -⟩, ⟨-, h5, -⟩, ⟨h6, -⟩, -⟩ := hnd
  unfold handle_read_req
  rw [hsel, if_neg (Ne.symm h0), if_neg (Ne.symm h1), if_neg (Ne.symm h2),
    if_neg (Ne.symm h3), if_neg (Ne.symm h4), if_neg (Ne.symm h5), if_neg (Ne.symm h6),
    if_pos rfl]

/-- C4: in every state reached from the initial state by timer ticks, bus completions
and `battery_poll` calls, a read request with the `ReadBattery` selector and a buffer
length of at least 8 is handled, leaves the response length 8 and the two 32-bit words
published current, published voltage in the first 8 bytes of the buffer (the rest of
the buffer is untouched, and the 16-bit accessor `read_battery_voltage` returns the
published voltage unchanged); with a buffer length below 8 the request is answered
with the stall result. -/
theorem read_batt_reply (env : Env) (hwf : env.WellFormed) (es : List Event)
    (req : usb_setup_data) (hsel : req.wIndex = env.POWERBOARD_READ_BATT)
    (len : Int) (buf : Buf) :
    (8 ≤ len →
        (handle_read_req env (runEvents init es) req len buf).result = USBD_REQ_HANDLED
        ∧ (handle_read_req env (runEvents init es) req len buf).len = 8
        ∧ load32 (handle_read_req env (runEvents init es) req len buf).buf 0
            = (runEvents init es).batt_read_current
        ∧ load32 (handle_read_req env (runEvents init es) req len buf).buf 4
            = (runEvents init es).batt_read_voltage
        ∧ read_battery_voltage (runEvents init es) = (runEvents init es).batt_read_voltage
        ∧ ∀ i : Nat, 8 ≤ i →
            (handle_read_req env (runEvents init es) req len buf).buf i = buf i)
      ∧ (len < 8 →
          (handle_read_req env (runEvents init es) req len buf).result = USBD_REQ_NOTSUPP) := by
  obtain ⟨hc, hv⟩ := runEvents_inRange es init init_inRange
  have hv32 : (runEvents init es).batt_read_voltage < 2 ^ 32 :=
    lt_trans hv (by norm_num)
  rw [handle_read_req_batt env hwf _ req hsel]
  constructor
  · intro hlen
    rw [if_neg (not_lt.mpr hlen)]
    simp only [read_battery_voltage, read_battery_current]
    rw [Nat.mod_eq_of_lt hv, Nat.mod_eq_of_lt hv32, Nat.mod_eq_of_lt hc]
    refine ⟨trivial, trivial, ?_, load32_store32 _ 4 _ hv32, rfl, ?_⟩
    · rw [load32_store32_four]
      exact load32_store32 _ 0 _ hc
    · intro i hi
      unfold store32
      have e0 : i ≠ 0 := by omega
      have e1 : i ≠ 0 + 1 := by omega
      have e2 : i ≠ 0 + 2 := by omega
      have e3 : i ≠ 0 + 3 := by omega
      have e4 : i ≠ 4 := by omega
      have e5 : i ≠ 4 + 1 := by omega
      have e6 : i ≠ 4 + 2 := by omega
      have e7 : i ≠ 4 + 3 := by omega
      simp only [if_neg e0, if_neg e1, if_neg e2, if_neg e3, if_neg e4, if_neg e5,
        if_neg e6, if_neg e7]
  · intro hlen
    rw [if_pos hlen]

/-- Witness of C4 with the sample selectors: after a tick, a poll, a completed current
read of raw 100 and a further poll, a `ReadBattery` request with 8 bytes of buffer is
handled and a request with 7 bytes is stalled. -/
theorem read_batt_reply_witness :
    (handle_read_req sampleEnv
        (runEvents init [Event.tick, Event.poll, Event.bus 100 i2c_stat.I2C_STAT_OK, Event.poll])
        ⟨0x80, 64, 0, 7, 8⟩ 8 (fun _ => 0)).result = USBD_REQ_HANDLED
      ∧ (handle_read_req sampleEnv
          (runEvents init [Event.tick, Event.poll, Event.bus 100 i2c_stat.I2C_STAT_OK, Event.poll])
          ⟨0x80, 64, 0, 7, 7⟩ 7 (fun _ => 0)).result = USBD_REQ_NOTSUPP :=
  ⟨((read_batt_reply sampleEnv (by decide)
      [Event.tick, Event.poll, Event.bus 100 i2c_stat.I2C_STAT_OK, Event.poll]
      ⟨0x80, 64, 0, 7, 8⟩ rfl 8 (fun _ => 0)).1 (by decide)).1,
   (read_batt_reply sampleEnv (by decide)
      [Event.tick, Event.poll, Event.bus 100 i2c_stat.I2C_STAT_OK, Event.poll]
      ⟨0x80, 64, 0, 7, 7⟩ rfl 7 (fun _ => 0)).2 (by decide)⟩

/-! ### Selectors of the read and the write path -/

/-- The 5V rail case of the switch in `handle_read_req`, reached when the selector is
`POWERBOARD_READ_5VRAIL`. -/
theorem handle_read_req_5vrail (env : Env) (hwf : env.WellFormed) (s : State)
    (req : usb_setup_data) (hsel : req.wIndex = env.POWERBOARD_READ_5VRAIL)
    (len : Int) (buf : Buf) :
    handle_read_req env s req len buf
      = if len < 4 then ⟨USBD_REQ_NOTSUPP, len, buf⟩ else ⟨USBD_REQ_HANDLED, 4, buf⟩ := by
  have hnd := hwf.1
  simp only [Env.readLabels, List.nodup_cons, List.mem_cons, List.mem_singleton,
    not_or] at hnd
  obtain ⟨⟨-, -, -, -, -, h0, -⟩, ⟨-, -, -, -, h1, -⟩, ⟨-, -, -, h2, -⟩,
    ⟨-, -, h3, -⟩, ⟨-, h4, -⟩, ⟨h5, -⟩, -⟩ := hnd
  unfold handle_read_req
  rw [hsel, if_neg (Ne.symm h0), if_neg (Ne.symm h1), if_neg (Ne.symm h2),
    if_neg (Ne.symm h3), if_neg (Ne.symm h4), if_neg (Ne.symm h5), if_pos rfl]

/-- C5 as stated fails: with the sample selectors a `Read5VRail` request that brings
a 4-byte buffer is answered with "handled", not with the stall result. -/
theorem read_5vrail_not_always_stalled :
    ¬ ∀ len : Int,
        (handle_read_req sampleEnv init ⟨0x80, 64, 0, 6, 4⟩ len (fun _ => 0)).result
          = USBD_REQ_NOTSUPP := by
  intro h
  have h4 := h 4
  revert h4
  decide

/-- C5, amended: a read request with the `Read5VRail` selector is stalled, with length
and buffer untouched, when the buffer length is below 4; from 4 bytes on it is
answered with "handled", response length 4, and nothing is written to the buffer. -/
theorem read_5vrail_reply (env : Env) (hwf : env.WellFormed) (s : State)
    (req : usb_setup_data) (hsel : req.wIndex = env.POWERBOARD_READ_5VRAIL)
    (len : Int) (buf : Buf) :
    (len < 4 → handle_read_req env s req len buf = ⟨USBD_REQ_NOTSUPP, len, buf⟩)
      ∧ (4 ≤ len → handle_read_req env s req len buf = ⟨USBD_REQ_HANDLED, 4, buf⟩) := by
  rw [handle_read_req_5vrail env hwf s req hsel]
  constructor
  · intro h
    rw [if_pos h]
  · intro h
    rw [if_neg (not_lt.mpr h)]

/-- Witness of the amended C5: 3 bytes of buffer are stalled, 64 bytes are answered
with length 4. -/
theorem read_5vrail_reply_witness :
    (handle_read_req sampleEnv init ⟨0x80, 64, 0, 6, 3⟩ 3 (fun _ => 0)).result
        = USBD_REQ_NOTSUPP
      ∧ (handle_read_req sampleEnv init ⟨0x80, 64, 0, 6, 64⟩ 64 (fun _ => 0)).len = 4 :=
  ⟨congrArg ReadOut.result
      ((read_5vrail_reply sampleEnv (by decide) init ⟨0x80, 64, 0, 6, 3⟩ rfl 3
        (fun _ => 0)).1 (by decide)),
   congrArg ReadOut.len
      ((read_5vrail_reply sampleEnv (by decide) init ⟨0x80, 64, 0, 6, 64⟩ rfl 64
        (fun _ => 0)).2 (by decide))⟩

/-- C6: a read request whose selector is none of the case labels of `handle_read_req`
is answered with "not supported" for every buffer length, with length and buffer
untouched; a write request whose selector is none of the case labels of
`handle_write_req` is answered with "not supported" and leaves the state, the trace of
output, LED and piezo calls included, as it was. -/
theorem unknown_selector_notsupp (env : Env) (s : State) (req : usb_setup_data) :
    (req.wIndex ∉ env.readLabels →
        ∀ (len : Int) (buf : Buf),
          handle_read_req env s req len buf = ⟨USBD_REQ_NOTSUPP, len, buf⟩)
      ∧ (req.wIndex ∉ env.writeLabels →
          handle_write_req env s req = ⟨USBD_REQ_NOTSUPP, s⟩) := by
  constructor
  · intro h len buf
    simp only [Env.readLabels, List.mem_cons, List.mem_singleton, not_or,
      List.not_mem_nil, not_false_eq_true, and_true] at h
    obtain ⟨h0, h1, h2, h3, h4, h5, h6, h7, h8, h9⟩ := h
    unfold handle_read_req
    rw [if_neg h0, if_neg h1, if_neg h2, if_neg h3, if_neg h4, if_neg h5, if_neg h6,
      if_neg h7, if_neg h8, if_neg h9]
  · intro h
    simp only [Env.writeLabels, List.mem_cons, List.mem_singleton, not_or,
      List.not_mem_nil, not_false_eq_true, and_true] at h
    obtain ⟨h0, h1, h2, h3, h4, h5, h6, h7, h8⟩ := h
    unfold handle_write_req
    rw [if_neg h0, if_neg h1, if_neg h2, if_neg h3, if_neg h4, if_neg h5, if_neg h6,
      if_neg h7, if_neg h8]

/-- Witness of C6 with the sample selectors and the selector 200, which is neither a
read nor a write selector. -/
theorem unknown_selector_notsupp_witness :
    (handle_read_req sampleEnv init ⟨0x80, 64, 0, 200, 8⟩ 8 (fun _ => 0)).result
        = USBD_REQ_NOTSUPP
      ∧ (handle_write_req sampleEnv init ⟨0x00, 64, 1, 200, 0⟩).state.trace = [] :=
  ⟨congrArg ReadOut.result
      ((unknown_selector_notsupp sampleEnv init ⟨0x80, 64, 0, 200, 8⟩).1 (by decide) 8
        (fun _ => 0)),
   congrArg (fun w => w.state.trace)
      ((unknown_selector_notsupp sampleEnv init ⟨0x00, 64, 1, 200, 0⟩).2 (by decide))⟩

/-- On a 16-bit parameter `write_output` makes the one call chosen by the parameter. -/
theorem write_output_eq (id : Int) (param : Nat) (hp : param < 2 ^ 16) (s : State) :
    write_output id param s
      = s.call (if param = 0 then Call.output_off id else Call.output_on id) := by
  unfold write_output
  rw [Nat.mod_eq_of_lt hp]
  split <;> rfl

/-- On a 16-bit parameter `write_led` makes the one call chosen by the parameter. -/
theorem write_led_eq (id : Int) (param : Nat) (hp : param < 2 ^ 16) (s : State) :
    write_led id param s
      = s.call (if param = 0 then Call.led_clear id else Call.led_set id) := by
  unfold write_led
  rw [Nat.mod_eq_of_lt hp]
  split <;> rfl

/-- C7: for every output index `i` from 0 to 5 and every 16-bit value, a write request
with the selector of output `i` is handled and adds exactly one driver call to the
trace, `output_off i` for the value 0 and `output_on i` otherwise; the run LED and the
error LED selectors do the same with `led_clear` and `led_set` on their LED.  Nothing
else of the state changes. -/
theorem write_output_led_reply (env : Env) (hwf : env.WellFormed) (s : State)
    (req : usb_setup_data) (hval : req.wValue < 2 ^ 16) :
    (∀ i : Nat, i ≤ 5 → req.wIndex = env.writeOutputLabel i →
        handle_write_req env s req
          = ⟨USBD_REQ_HANDLED,
              s.call (if req.wValue = 0 then Call.output_off (i : Int)
                      else Call.output_on (i : Int))⟩)
      ∧ (req.wIndex = env.POWERBOARD_WRITE_RUNLED →
          handle_write_req env s req
            = ⟨USBD_REQ_HANDLED,
                s.call (if req.wValue = 0 then Call.led_clear env.LED_RUN
                        else Call.led_set env.LED_RUN)⟩)
      ∧ (req.wIndex = env.POWERBOARD_WRITE_ERRORLED →
          handle_write_req env s req
            = ⟨USBD_REQ_HANDLED,
                s.call (if req.wValue = 0 then Call.led_clear env.LED_ERROR
                        else Call.led_set env.LED_ERROR)⟩) := by
  have hnd := hwf.2
  simp only [Env.writeLabels, List.nodup_cons, List.mem_cons, List.mem_singleton,
    not_or] at hnd
  obtain ⟨⟨h01, h02, h03, h04, h05, h06, h07, -⟩, ⟨h12, h13, h14, h15, h16, h17, -⟩,
    ⟨h23, h24, h25, h26, h27, -⟩, ⟨h34, h35, h36, h37, -⟩, ⟨h45, h46, h47, -⟩,
    ⟨h56, h57, -⟩, ⟨h67, -⟩, -⟩ := hnd
  refine ⟨?_, ?_, ?_⟩
  · intro i hi hsel
    unfold handle_write_req
    interval_cases i
    · have hsel0 : req.wIndex = env.POWERBOARD_WRITE_OUTPUT0 := hsel
      rw [hsel0, if_pos rfl, write_output_eq _ _ hval]
      rfl
    · have hsel1 : req.wIndex = env.POWERBOARD_WRITE_OUTPUT1 := hsel
      rw [hsel1, if_neg (Ne.symm h01), if_pos rfl, write_output_eq _ _ hval]
      rfl
    · have hsel2 : req.wIndex = env.POWERBOARD_WRITE_OUTPUT2 := hsel
      rw [hsel2, if_neg (Ne.symm h02), if_neg (Ne.symm h12), if_pos rfl,
        write_output_eq _ _ hval]
      rfl
    · have hsel3 : req.wIndex = env.POWERBOARD_WRITE_OUTPUT3 := hsel
      rw [hsel3, if_neg (Ne.symm h03), if_neg (Ne.symm h13), if_neg (Ne.symm h23),
        if_pos rfl, write_output_eq _ _ hval]
      rfl
    · have hsel4 : req.wIndex = env.POWERBOARD_WRITE_OUTPUT4 := hsel
      rw [hsel4, if_neg (Ne.symm h04), if_neg (Ne.symm h14), if_neg (Ne.symm h24),
        if_neg (Ne.symm h34), if_pos rfl, write_output_eq _ _ hval]
      rfl
    · have hsel5 : req.wIndex = env.POWERBOARD_WRITE_OUTPUT5 := hsel
      rw [hsel5, if_neg (Ne.symm h05), if_neg (Ne.symm h15), if_neg (Ne.symm h25),
        if_neg (Ne.symm h35), if_neg (Ne.symm h45), if_pos rfl, write_output_eq _ _ hval]
      rfl
  · intro hsel
    unfold handle_write_req
    rw [hsel, if_neg (Ne.symm h06), if_neg (Ne.symm h16), if_neg (Ne.symm h26),
      if_neg (Ne.symm h36), if_neg (Ne.symm h46), if_neg (Ne.symm h56), if_pos rfl,
      write_led_eq _ _ hval]
  · intro hsel
    unfold handle_write_req
    rw [hsel, if_neg (Ne.symm h07), if_neg (Ne.symm h17), if_neg (Ne.symm h27),
      if_neg (Ne.symm h37), if_neg (Ne.symm h47), if_neg (Ne.symm h57),
      if_neg (Ne.symm h67), if_pos rfl, write_led_eq _ _ hval]

/-- Witness of C7 with the sample selectors: value 1 to output 3 from the initial
state. -/
theorem write_output_led_reply_witness :
    handle_write_req sampleEnv init ⟨0x00, 64, 1, 3, 0⟩
      = ⟨USBD_REQ_HANDLED, init.call (Call.output_on 3)⟩ :=
  (write_output_led_reply sampleEnv (by decide) init ⟨0x00, 64, 1, 3, 0⟩ (by decide)).1 3
    (by decide) rfl

/-! ### The request code and the two callbacks -/

/-- A property of both branches of a conditional read outcome holds of the outcome. -/
theorem readOut_ite_ind (P : ReadOut → Prop) (c : Prop) [Decidable c] (a b : ReadOut)
    (ha : P a) (hb : P b) : P (if c then a else b) := by
  split <;> assumption

/-- A property of both branches of a conditional write outcome holds of the outcome. -/
theorem writeOut_ite_ind (P : WriteOut → Prop) (c : Prop) [Decidable c] (a b : WriteOut)
    (ha : P a) (hb : P b) : P (if c then a else b) := by
  split <;> assumption

/-- The read handler never hands a request on to a further callback. -/
theorem handle_read_req_result (env : Env) (s : State) (req : usb_setup_data)
    (len : Int) (buf : Buf) :
    (handle_read_req env s req len buf).result ≠ USBD_REQ_NEXT_CALLBACK := by
  unfold handle_read_req read_output
  repeat' apply readOut_ite_ind (fun r => r.result ≠ USBD_REQ_NEXT_CALLBACK)
  all_goals simp

theorem write_output_state (id : Int) (param : Nat) (s : State) :
    TraceExtends s (write_output id param s) := by
  unfold write_output
  split
  · exact ⟨[_], rfl⟩
  · exact ⟨[_], rfl⟩

theorem write_led_state (id : Int) (param : Nat) (s : State) :
    TraceExtends s (write_led id param s) := by
  unfold write_led
  split
  · exact ⟨[_], rfl⟩
  · exact ⟨[_], rfl⟩

/-- The write handler changes nothing but the trace of driver calls. -/
theorem handle_write_req_state (env : Env) (s : State) (req : usb_setup_data) :
    TraceExtends s (handle_write_req env s req).state := by
  unfold handle_write_req
  simp only []
  repeat' apply writeOut_ite_ind (fun w => TraceExtends s w.state)
  all_goals first
    | exact write_output_state _ _ s
    | exact write_led_state _ _ s
    | exact ⟨[_], rfl⟩
    | exact ⟨[], by simp⟩

/-- The write handler never hands a request on to a further callback. -/
theorem handle_write_req_result (env : Env) (s : State) (req : usb_setup_data) :
    (handle_write_req env s req).result ≠ USBD_REQ_NEXT_CALLBACK := by
  unfold handle_write_req
  simp only []
  repeat' apply writeOut_ite_ind (fun w => w.result ≠ USBD_REQ_NEXT_CALLBACK)
  all_goals simp

/-- C8 as stated fails: a GET_DESCRIPTOR request (request code 6, not 64) is not
answered with the stall result by `control`. -/
theorem control_other_code_not_stalled :
    (⟨0x80, 6, 0x0100, 0, 18⟩ : usb_setup_data).bRequest ≠ 64
      ∧ (control sampleEnv init ⟨0x80, 6, 0x0100, 0, 18⟩ 18 (fun _ => 0)).result
          ≠ USBD_REQ_NOTSUPP := by
  decide

/-- C8, amended: for every request whose request code is not 64, `control` returns
"next callback" and leaves the state, the trace of driver calls, the response length
and the buffer as they were, so neither handler has run; a request with code 64 is
never passed on to a further callback. -/
theorem control_request_code (env : Env) (s : State) (req : usb_setup_data)
    (len : Nat) (buf : Buf) :
    (req.bRequest ≠ 64 → control env s req len buf = ⟨USBD_REQ_NEXT_CALLBACK, s, len, buf⟩)
      ∧ (req.bRequest = 64 →
          (control env s req len buf).result ≠ USBD_REQ_NEXT_CALLBACK) := by
  constructor
  · intro h
    unfold control
    rw [if_pos h]
  · intro h
    unfold control
    rw [if_neg (not_not.mpr h)]
    split
    · exact handle_read_req_result env s req len buf
    · exact handle_write_req_result env s req

/-- Witness of the amended C8: a GET_DESCRIPTOR request is passed on, a request with
code 64 for an unknown read selector is not. -/
theorem control_request_code_witness :
    control sampleEnv init ⟨0x80, 6, 0x0100, 0, 18⟩ 18 (fun _ => 0)
        = ⟨USBD_REQ_NEXT_CALLBACK, init, 18, fun _ => 0⟩
      ∧ (control sampleEnv init ⟨0x80, 64, 0, 200, 4⟩ 4 (fun _ => 0)).result
          ≠ USBD_REQ_NEXT_CALLBACK :=
  ⟨(control_request_code sampleEnv init ⟨0x80, 6, 0x0100, 0, 18⟩ 18 (fun _ => 0)).1
      (by decide),
   (control_request_code sampleEnv init ⟨0x80, 64, 0, 200, 4⟩ 4 (fun _ => 0)).2 rfl⟩

/-! ### The bootloader flag -/

/-- No vendor request changes the bootloader flag. -/
theorem control_flag (env : Env) (s : State) (req : usb_setup_data) (len : Nat) (buf : Buf) :
    (control env s req len buf).state.re_enter_bootloader = s.re_enter_bootloader := by
  unfold control
  split
  · rfl
  · split
    · rfl
    · obtain ⟨cs, hcs⟩ := handle_write_req_state env s req
      simp only [hcs]

/-- A DETACH request to `iface_control` is handled and sets the flag, nothing else. -/
theorem iface_control_detach (s : State) (req : usb_setup_data) (len : Nat) (buf : Buf)
    (hreq : isDetach req) :
    iface_control s req len buf
      = ⟨USBD_REQ_HANDLED, { s with re_enter_bootloader := true }, len, buf⟩ := by
  obtain ⟨hty, hcode⟩ := hreq
  have hstd : ¬ (req.bmRequestType = (USB_REQ_TYPE_STANDARD ||| USB_REQ_TYPE_INTERFACE)
      ∧ req.bRequest = USB_REQ_SET_INTERFACE ∧ req.wValue = 0 ∧ req.wIndex = 0) := by
    rintro ⟨hbm, -⟩
    rw [hbm] at hty
    revert hty
    decide
  have hget : ¬ req.bRequest = DFU_GETSTATUS := by
    rw [hcode]
    decide
  unfold iface_control
  rw [if_neg hstd, if_pos hty, if_neg hget, if_pos hcode]

/-- The flag after a request to `iface_control` is set exactly when it was set before
or the request is a DETACH. -/
theorem iface_control_flag (s : State) (req : usb_setup_data) (len : Nat) (buf : Buf) :
    (iface_control s req len buf).state.re_enter_bootloader = true
      ↔ s.re_enter_bootloader = true ∨ isDetach req := by
  by_cases hreq : isDetach req
  · rw [iface_control_detach s req len buf hreq]
    simp [hreq]
  · have hst : (iface_control s req len buf).state = s := by
      unfold iface_control
      split
      · rfl
      · split
        · split
          · rfl
          · split
            · rename_i hty _ hcode
              exact absurd ⟨hty, hcode⟩ hreq
            · rfl
        · rfl
    rw [hst]
    simp [hreq]

/-- A delivery that passes the filter of its callback sets the flag exactly when its
request is a DETACH; otherwise the flag keeps its value. -/
theorem delivery_flag (env : Env) (s : State) (d : Delivery) (hreg : d.Registered) :
    (d.out env s).state.re_enter_bootloader = true
      ↔ s.re_enter_bootloader = true ∨ isDetach d.req := by
  cases d with
  | control req len buf =>
    have hno : ¬ isDetach req := by
      rintro ⟨hty, -⟩
      have hdev : (req.bmRequestType &&& (USB_REQ_TYPE_TYPE ||| USB_REQ_TYPE_RECIPIENT))
          = USB_REQ_TYPE_DEVICE := hreg
      rw [hdev] at hty
      revert hty
      decide
    show (control env s req len buf).state.re_enter_bootloader = true ↔ _
    rw [control_flag]
    simp [Delivery.req, hno]
  | iface_control req len buf =>
    exact iface_control_flag s req len buf

/-- No delivery, whatever its filter, clears a flag that is set. -/
theorem delivery_flag_stays (env : Env) (s : State) (d : Delivery)
    (hset : s.re_enter_bootloader = true) :
    (d.out env s).state.re_enter_bootloader = true := by
  cases d with
  | control req len buf =>
    show (control env s req len buf).state.re_enter_bootloader = true
    rw [control_flag]
    exact hset
  | iface_control req len buf =>
    exact (iface_control_flag s req len buf).mpr (Or.inl hset)

/-- The flag after a sequence of filtered deliveries. -/
theorem runDeliveries_flag (env : Env) (ds : List Delivery) (s : State)
    (hreg : ∀ d ∈ ds, d.Registered) :
    (runDeliveries env s ds).re_enter_bootloader = true
      ↔ s.re_enter_bootloader = true ∨ ∃ d ∈ ds, isDetach d.req := by
  induction ds generalizing s with
  | nil => simp [runDeliveries]
  | cons d ds ih =>
    have hd : d.Registered := hreg d (List.mem_cons_self d ds)
    have hds : ∀ e ∈ ds, e.Registered := fun e he => hreg e (List.mem_cons_of_mem d he)
    have step : runDeliveries env s (d :: ds) = runDeliveries env (d.out env s).state ds := rfl
    rw [step, ih (d.out env s).state hds, delivery_flag env s d hd]
    simp only [List.mem_cons, exists_eq_or_imp]
    tauto

/-- C9: starting with the flag clear, after any finite sequence of requests delivered
to `control` and `iface_control` under the filters they are registered with,
`re_enter_bootloader` is set if and only if one of the requests was a class-type,
interface-recipient request with request code DETACH; a DETACH delivered after a
DETACH is handled and leaves the state as the first one left it; and no delivery
clears a flag that is set. -/
theorem bootloader_flag_write_once (env : Env) (s0 : State)
    (hclear : s0.re_enter_bootloader = false) (ds : List Delivery)
    (hreg : ∀ d ∈ ds, d.Registered) :
    ((runDeliveries env s0 ds).re_enter_bootloader = true ↔ ∃ d ∈ ds, isDetach d.req)
      ∧ (∀ (s : State) (req again : usb_setup_data) (len len2 : Nat) (buf buf2 : Buf),
          isDetach req → isDetach again →
          iface_control (iface_control s req len buf).state again len2 buf2
            = ⟨USBD_REQ_HANDLED, (iface_control s req len buf).state, len2, buf2⟩)
      ∧ (∀ (s : State) (d : Delivery), s.re_enter_bootloader = true →
          (d.out env s).state.re_enter_bootloader = true) := by
  refine ⟨?_, ?_, ?_⟩
  · rw [runDeliveries_flag env ds s0 hreg, hclear]
    simp
  · intro s req again len len2 buf buf2 hreq hagain
    rw [iface_control_detach s req len buf hreq, iface_control_detach _ again len2 buf2 hagain]
  · intro s d hset
    exact delivery_flag_stays env s d hset

/-- Witness of C9: a vendor write to `control` followed by a DETACH to `iface_control`
sets the flag. -/
theorem bootloader_flag_write_once_witness :
    (runDeliveries sampleEnv init
        [Delivery.control ⟨0x00, 64, 1, 0, 0⟩ 0 (fun _ => 0),
         Delivery.iface_control ⟨0x21, 0, 0, 0, 0⟩ 0 (fun _ => 0)]).re_enter_bootloader
      = true :=
  (bootloader_flag_write_once sampleEnv init rfl
      [Delivery.control ⟨0x00, 64, 1, 0, 0⟩ 0 (fun _ => 0),
       Delivery.iface_control ⟨0x21, 0, 0, 0, 0⟩ 0 (fun _ => 0)]
      (by
        intro d hd
        simp only [List.mem_cons, List.mem_singleton, List.not_mem_nil, or_false] at hd
        rcases hd with rfl | rfl <;> decide)).1.mpr
    ⟨Delivery.iface_control ⟨0x21, 0, 0, 0, 0⟩ 0 (fun _ => 0), by simp, by decide⟩

/-- C10: for every class-type, interface-recipient request with request code
GETSTATUS, whatever its other fields, the prior state and the buffer handed in,
`iface_control` returns "handled", sets the response length to 6 and writes the bytes
bStatus = 0, bwPollTimeout = 100, 0, 0, bState = application idle, iString = 0; the
rest of the buffer and the whole state, the bootloader flag included, are unchanged. -/
theorem getstatus_reply (s : State) (req : usb_setup_data) (len : Nat) (buf : Buf)
    (hty : (req.bmRequestType &&& (USB_REQ_TYPE_TYPE ||| USB_REQ_TYPE_RECIPIENT))
        = (USB_REQ_TYPE_CLASS ||| USB_REQ_TYPE_INTERFACE))
    (hcode : req.bRequest = DFU_GETSTATUS) :
    (iface_control s req len buf).result = USBD_REQ_HANDLED
      ∧ (iface_control s req len buf).len = 6
      ∧ (iface_control s req len buf).buf 0 = 0
      ∧ (iface_control s req len buf).buf 1 = 100
      ∧ (iface_control s req len buf).buf 2 = 0
      ∧ (iface_control s req len buf).buf 3 = 0
      ∧ (iface_control s req len buf).buf 4 = STATE_APP_IDLE
      ∧ (iface_control s req len buf).buf 5 = 0
      ∧ (∀ i : Nat, 6 ≤ i → (iface_control s req len buf).buf i = buf i)
      ∧ (iface_control s req len buf).state = s
      ∧ (iface_control s req len buf).state.re_enter_bootloader = s.re_enter_bootloader := by
  have hstd : ¬ (req.bmRequestType = (USB_REQ_TYPE_STANDARD ||| USB_REQ_TYPE_INTERFACE)
      ∧ req.bRequest = USB_REQ_SET_INTERFACE ∧ req.wValue = 0 ∧ req.wIndex = 0) := by
    rintro ⟨hbm, -⟩
    rw [hbm] at hty
    revert hty
    decide
  unfold iface_control
  rw [if_neg hstd, if_pos hty, if_pos hcode]
  refine ⟨rfl, rfl, rfl, rfl, rfl, rfl, rfl, rfl, ?_, rfl, rfl⟩
  intro i hi
  have e0 : i ≠ 0 := by omega
  have e1 : i ≠ 1 := by omega
  have e2 : i ≠ 2 := by omega
  have e3 : i ≠ 3 := by omega
  have e4 : i ≠ 4 := by omega
  have e5 : i ≠ 5 := by omega
  simp only [store8, if_neg e0, if_neg e1, if_neg e2, if_neg e3, if_neg e4, if_neg e5]

/-- Witness of C10: a GETSTATUS request with the direction bit set, in the initial
state, with a buffer full of `0xFF`. -/
theorem getstatus_reply_witness :
    (iface_control init ⟨0xA1, 3, 0, 0, 6⟩ 6 (fun _ => 0xFF)).len = 6
      ∧ (iface_control init ⟨0xA1, 3, 0, 0, 6⟩ 6 (fun _ => 0xFF)).buf 1 = 100 :=
  ⟨(getstatus_reply init ⟨0xA1, 3, 0, 0, 6⟩ 6 (fun _ => 0xFF) (by decide) rfl).2.1,
   (getstatus_reply init ⟨0xA1, 3, 0, 0, 6⟩ 6 (fun _ => 0xFF) (by decide) rfl).2.2.2.1⟩

/-! ### Range of the current decode -/

/-- C18: for every 16-bit shunt sample `v` the product `20 * v` is at most 1310700, so
neither the `int` multiplication nor the store into the `uint32_t` wraps;
`battery_current v` is 1 when the product is below 800 and the product minus 800
otherwise, where the subtraction is exact over the integers (no underflow). -/
theorem battery_current_no_wrap (v : Nat) (hv : v < 2 ^ 16) :
    20 * v ≤ 1310700
      ∧ 20 * v < 2 ^ 31
      ∧ (v % 2 ^ 16 * 20) % 2 ^ 32 = 20 * v
      ∧ (20 * v < 800 → battery_current v = 1)
      ∧ (¬ 20 * v < 800 →
          battery_current v = 20 * v - 800
          ∧ ((battery_current v : Nat) : Int) = 20 * (v : Int) - 800) := by
  have hmod : v % 2 ^ 16 = v := Nat.mod_eq_of_lt hv
  have hprod : (v * 20) % 2 ^ 32 = v * 20 := Nat.mod_eq_of_lt (by omega)
  have hcur : battery_current v = if v * 20 < 800 then 1 else v * 20 - 800 := by
    unfold battery_current
    simp only []
    rw [hmod, hprod]
    split
    · rfl
    · exact Nat.mod_eq_of_lt (by omega)
  refine ⟨by omega, by omega, by omega, ?_, ?_⟩
  · intro hlt
    rw [hcur, if_pos (by omega)]
  · intro hge
    rw [hcur, if_neg (by omega)]
    constructor
    · omega
    · omega

/-- Witness of C18 at the raw samples 100 (scaled 2000) and 3 (scaled 60). -/
theorem battery_current_no_wrap_witness :
    battery_current 100 = 20 * 100 - 800 ∧ battery_current 3 = 1 :=
  ⟨((battery_current_no_wrap 100 (by decide)).2.2.2.2 (by decide)).1,
   (battery_current_no_wrap 3 (by decide)).2.2.2.1 (by decide)⟩

/-! ### The arms of `battery_poll` -/

/-- In an await state with the tick flag clear `battery_poll` does nothing. -/
theorem battery_poll_await_idle (s : State) (hst : s.batt_read_state.awaitsTick = true)
    (htick : s.batt_do_read = false) : battery_poll s = s := by
  unfold battery_poll timer_triggered
  cases hs : s.batt_read_state <;> rw [hs] at hst <;> simp_all [BattReadState.awaitsTick]

/-- In `BATT_PRE_CURR` with the tick flag set `battery_poll` clears the flag, starts the
read of the shunt register and waits. -/
theorem battery_poll_pre_curr_tick (s : State) (hst : s.batt_read_state = .BATT_PRE_CURR)
    (htick : s.batt_do_read = true) :
    battery_poll s
      = { s with batt_do_read := false,
                 read_flag := .I2C_STAT_NOTYET,
                 batt_read_state := .BATT_WAIT_CURR,
                 trace := s.trace ++ [Call.i2c_init_read INA219_ADDR_BATT INA219_REG_VSHUNT] } := by
  unfold battery_poll timer_triggered
  rw [hst]
  simp [htick, reset_battery_timer, i2c_init_read, State.call, battery_poll_wait_curr]

/-- In `BATT_PRE_VOLT` with the tick flag set `battery_poll` clears the flag, starts the
read of the bus-voltage register and waits. -/
theorem battery_poll_pre_volt_tick (s : State) (hst : s.batt_read_state = .BATT_PRE_VOLT)
    (htick : s.batt_do_read = true) :
    battery_poll s
      = { s with batt_do_read := false,
                 read_flag := .I2C_STAT_NOTYET,
                 batt_read_state := .BATT_WAIT_VOLT,
                 trace := s.trace ++ [Call.i2c_init_read INA219_ADDR_BATT INA219_REG_VBUS] } := by
  unfold battery_poll timer_triggered
  rw [hst]
  simp [htick, reset_battery_timer, i2c_init_read, State.call, battery_poll_wait_volt]

/-- In a wait state with the status NotYet `battery_poll` does nothing. -/
theorem battery_poll_wait_notyet (s : State) (hst : s.batt_read_state.awaitsTick = false)
    (hflag : s.read_flag = .I2C_STAT_NOTYET) : battery_poll s = s := by
  unfold battery_poll
  cases hs : s.batt_read_state <;> rw [hs] at hst <;>
    simp_all [BattReadState.awaitsTick, battery_poll_wait_curr, battery_poll_wait_volt]

/-- In `BATT_WAIT_CURR` with a status other than NotYet `battery_poll` publishes the
current and moves on. -/
theorem battery_poll_wait_curr_done (s : State) (hst : s.batt_read_state = .BATT_WAIT_CURR)
    (hflag : s.read_flag ≠ .I2C_STAT_NOTYET) :
    battery_poll s
      = { s with batt_read_current :=
                   if i2c_error_flag s.read_flag then 0 else battery_current s.read_sample,
                 batt_read_state := .BATT_PRE_VOLT } := by
  unfold battery_poll
  rw [hst]
  simp only [battery_poll_wait_curr, if_neg hflag]
  cases i2c_error_flag s.read_flag <;> simp

/-- In `BATT_WAIT_VOLT` with a status other than NotYet `battery_poll` publishes the
voltage and moves on. -/
theorem battery_poll_wait_volt_done (s : State) (hst : s.batt_read_state = .BATT_WAIT_VOLT)
    (hflag : s.read_flag ≠ .I2C_STAT_NOTYET) :
    battery_poll s
      = { s with batt_read_voltage :=
                   if i2c_error_flag s.read_flag then 0 else battery_voltage s.read_sample,
                 batt_read_state := .BATT_PRE_CURR } := by
  unfold battery_poll
  rw [hst]
  simp only [battery_poll_wait_volt, if_neg hflag]
  cases i2c_error_flag s.read_flag <;> simp

/-- An error status is not NotYet. -/
theorem error_flag_ne_notyet (flag : i2c_stat) (herr : i2c_error_flag flag = true) :
    flag ≠ .I2C_STAT_NOTYET := by
  cases flag <;> simp_all [i2c_error_flag]

/-! ### Requests handled by `iface_control` -/

/-- A GETSTATUS request to `iface_control` is handled. -/
theorem iface_control_getstatus_result (s : State) (req : usb_setup_data) (len : Nat)
    (buf : Buf) (hreq : isGetStatus req) :
    (iface_control s req len buf).result = USBD_REQ_HANDLED := by
  obtain ⟨hty, hcode⟩ := hreq
  have hstd : ¬ (req.bmRequestType = (USB_REQ_TYPE_STANDARD ||| USB_REQ_TYPE_INTERFACE)
      ∧ req.bRequest = USB_REQ_SET_INTERFACE ∧ req.wValue = 0 ∧ req.wIndex = 0) := by
    rintro ⟨hbm, -⟩
    rw [hbm] at hty
    revert hty
    decide
  unfold iface_control
  rw [if_neg hstd, if_pos hty, if_pos hcode]

/-- A request that is none of the three handled kinds is rejected by `iface_control`
and changes nothing. -/
theorem iface_control_other (s : State) (req : usb_setup_data) (len : Nat) (buf : Buf)
    (hreq : ¬ (isSetInterface req ∨ isGetStatus req ∨ isDetach req)) :
    iface_control s req len buf = ⟨USBD_REQ_NOTSUPP, s, len, buf⟩ := by
  have hset : ¬ (req.bmRequestType = (USB_REQ_TYPE_STANDARD ||| USB_REQ_TYPE_INTERFACE)
      ∧ req.bRequest = USB_REQ_SET_INTERFACE ∧ req.wValue = 0 ∧ req.wIndex = 0) :=
    fun h => hreq (Or.inl h)
  have hget : ¬ isGetStatus req := fun h => hreq (Or.inr (Or.inl h))
  have hdet : ¬ isDetach req := fun h => hreq (Or.inr (Or.inr h))
  unfold iface_control
  rw [if_neg hset]
  split
  · rename_i hty
    rw [if_neg (fun hcode => hget ⟨hty, hcode⟩), if_neg (fun hcode => hdet ⟨hty, hcode⟩)]
  · rfl

/-- C11: `iface_control` returns "handled" exactly for (a) a request whose
`bmRequestType` is standard|interface with request code SET_INTERFACE, `wValue` 0 and
`wIndex` 0, (b) a class/interface GETSTATUS and (c) a class/interface DETACH.  A
request of kind (a) is acknowledged with state, response length and buffer untouched;
every request of no such kind is answered with "not supported" and leaves the state
(the bootloader flag included), the response length and the buffer unchanged. -/
theorem iface_control_handled_iff (s : State) (req : usb_setup_data) (len : Nat)
    (buf : Buf) :
    ((iface_control s req len buf).result = USBD_REQ_HANDLED
        ↔ isSetInterface req ∨ isGetStatus req ∨ isDetach req)
      ∧ (isSetInterface req → iface_control s req len buf = ⟨USBD_REQ_HANDLED, s, len, buf⟩)
      ∧ (¬ (isSetInterface req ∨ isGetStatus req ∨ isDetach req) →
          iface_control s req len buf = ⟨USBD_REQ_NOTSUPP, s, len, buf⟩) := by
  have hA : isSetInterface req → iface_control s req len buf
      = ⟨USBD_REQ_HANDLED, s, len, buf⟩ := by
    intro h
    have h1 : req.bmRequestType = (USB_REQ_TYPE_STANDARD ||| USB_REQ_TYPE_INTERFACE)
        ∧ req.bRequest = USB_REQ_SET_INTERFACE ∧ req.wValue = 0 ∧ req.wIndex = 0 := h
    unfold iface_control
    rw [if_pos h1]
  refine ⟨?_, hA, iface_control_other s req len buf⟩
  constructor
  · intro hres
    by_contra hno
    rw [iface_control_other s req len buf hno] at hres
    exact usbd_request_return_codes.noConfusion hres
  · rintro (h | h | h)
    · rw [hA h]
    · exact iface_control_getstatus_result s req len buf h
    · rw [iface_control_detach s req len buf h]

/-- Witness of C11: SET_INTERFACE for interface 0 is acknowledged without effect, the
same request for interface 1 is rejected without effect. -/
theorem iface_control_handled_iff_witness :
    iface_control init ⟨0x01, 11, 0, 0, 0⟩ 0 (fun _ => 0)
        = ⟨USBD_REQ_HANDLED, init, 0, fun _ => 0⟩
      ∧ iface_control init ⟨0x01, 11, 0, 1, 0⟩ 0 (fun _ => 0)
        = ⟨USBD_REQ_NOTSUPP, init, 0, fun _ => 0⟩ :=
  ⟨(iface_control_handled_iff init ⟨0x01, 11, 0, 0, 0⟩ 0 (fun _ => 0)).2.1 (by decide),
   (iface_control_handled_iff init ⟨0x01, 11, 0, 1, 0⟩ 0 (fun _ => 0)).2.2 (by decide)⟩

/-! ### Bus errors and stale readings -/

/-- C12: in `BATT_WAIT_CURR` (resp. `BATT_WAIT_VOLT`) with an error status one call of
`battery_poll` sets the published current (resp. voltage) to 0 and moves the read
state to `BATT_PRE_VOLT` (resp. `BATT_PRE_CURR`), whatever the sample slot holds;
nothing else of the state changes. -/
theorem bus_error_advances (s : State) (herr : i2c_error_flag s.read_flag = true) :
    (s.batt_read_state = .BATT_WAIT_CURR →
        battery_poll s = { s with batt_read_current := 0, batt_read_state := .BATT_PRE_VOLT })
      ∧ (s.batt_read_state = .BATT_WAIT_VOLT →
          battery_poll s
            = { s with batt_read_voltage := 0, batt_read_state := .BATT_PRE_CURR }) := by
  have hflag := error_flag_ne_notyet s.read_flag herr
  constructor
  · intro hst
    rw [battery_poll_wait_curr_done s hst hflag, if_pos herr]
  · intro hst
    rw [battery_poll_wait_volt_done s hst hflag, if_pos herr]

/-- Witness of C12: a current read that ends in an error while the sample slot holds
`0xBEEF` and the published current is 1200. -/
theorem bus_error_advances_witness :
    (battery_poll { init with batt_read_state := .BATT_WAIT_CURR,
                              read_flag := .I2C_STAT_ERROR,
                              read_sample := 0xBEEF,
                              batt_read_current := 1200 }).batt_read_current = 0
      ∧ (battery_poll { init with batt_read_state := .BATT_WAIT_CURR,
                                  read_flag := .I2C_STAT_ERROR,
                                  read_sample := 0xBEEF,
                                  batt_read_current := 1200 }).batt_read_state
          = .BATT_PRE_VOLT :=
  ⟨congrArg State.batt_read_current
      ((bus_error_advances { init with batt_read_state := .BATT_WAIT_CURR,
                                       read_flag := .I2C_STAT_ERROR,
                                       read_sample := 0xBEEF,
                                       batt_read_current := 1200 } rfl).1 rfl),
   congrArg State.batt_read_state
      ((bus_error_advances { init with batt_read_state := .BATT_WAIT_CURR,
                                       read_flag := .I2C_STAT_ERROR,
                                       read_sample := 0xBEEF,
                                       batt_read_current := 1200 } rfl).1 rfl)⟩

/-- A poll that does not complete a read leaves both published readings alone. -/
theorem battery_poll_readings_kept (s : State)
    (hcurr : ¬ (s.batt_read_state = .BATT_WAIT_CURR ∧ s.read_flag ≠ .I2C_STAT_NOTYET))
    (hvolt : ¬ (s.batt_read_state = .BATT_WAIT_VOLT ∧ s.read_flag ≠ .I2C_STAT_NOTYET)) :
    (battery_poll s).batt_read_current = s.batt_read_current
      ∧ (battery_poll s).batt_read_voltage = s.batt_read_voltage := by
  cases hst : s.batt_read_state
  · cases htick : s.batt_do_read
    · rw [battery_poll_await_idle s (by rw [hst]; rfl) htick]
      exact ⟨rfl, rfl⟩
    · rw [battery_poll_pre_curr_tick s hst htick]
      exact ⟨rfl, rfl⟩
  · have hflag : s.read_flag = .I2C_STAT_NOTYET := by
      by_contra h
      exact hcurr ⟨hst, h⟩
    rw [battery_poll_wait_notyet s (by rw [hst]; rfl) hflag]
    exact ⟨rfl, rfl⟩
  · cases htick : s.batt_do_read
    · rw [battery_poll_await_idle s (by rw [hst]; rfl) htick]
      exact ⟨rfl, rfl⟩
    · rw [battery_poll_pre_volt_tick s hst htick]
      exact ⟨rfl, rfl⟩
  · have hflag : s.read_flag = .I2C_STAT_NOTYET := by
      by_contra h
      exact hvolt ⟨hst, h⟩
    rw [battery_poll_wait_notyet s (by rw [hst]; rfl) hflag]
    exact ⟨rfl, rfl⟩

/-- C17: a `battery_poll` call changes the published current only if it completes a
current read (it is in `BATT_WAIT_CURR` with a status other than NotYet, and leaves for
`BATT_PRE_VOLT`), and then keeps the voltage; it changes the published voltage only if
it completes a voltage read (it is in `BATT_WAIT_VOLT` with a status other than NotYet,
and leaves for `BATT_PRE_CURR`), and then keeps the current; every other poll leaves
both readings unchanged, and `tim2_isr` changes neither. -/
theorem readings_change_only_on_completion (s : State) :
    ((battery_poll s).batt_read_current ≠ s.batt_read_current →
        s.batt_read_state = .BATT_WAIT_CURR ∧ s.read_flag ≠ .I2C_STAT_NOTYET
          ∧ (battery_poll s).batt_read_state = .BATT_PRE_VOLT
          ∧ (battery_poll s).batt_read_voltage = s.batt_read_voltage)
      ∧ ((battery_poll s).batt_read_voltage ≠ s.batt_read_voltage →
          s.batt_read_state = .BATT_WAIT_VOLT ∧ s.read_flag ≠ .I2C_STAT_NOTYET
            ∧ (battery_poll s).batt_read_state = .BATT_PRE_CURR
            ∧ (battery_poll s).batt_read_current = s.batt_read_current)
      ∧ (¬ (s.batt_read_state = .BATT_WAIT_CURR ∧ s.read_flag ≠ .I2C_STAT_NOTYET) →
          ¬ (s.batt_read_state = .BATT_WAIT_VOLT ∧ s.read_flag ≠ .I2C_STAT_NOTYET) →
          (battery_poll s).batt_read_current = s.batt_read_current
            ∧ (battery_poll s).batt_read_voltage = s.batt_read_voltage)
      ∧ (tim2_isr s).batt_read_current = s.batt_read_current
      ∧ (tim2_isr s).batt_read_voltage = s.batt_read_voltage := by
  refine ⟨?_, ?_, battery_poll_readings_kept s, rfl, rfl⟩
  · intro hne
    by_cases hcurr : s.batt_read_state = .BATT_WAIT_CURR ∧ s.read_flag ≠ .I2C_STAT_NOTYET
    · obtain ⟨hst, hflag⟩ := hcurr
      refine ⟨hst, hflag, ?_, ?_⟩
      · rw [battery_poll_wait_curr_done s hst hflag]
      · rw [battery_poll_wait_curr_done s hst hflag]
    · by_cases hvolt : s.batt_read_state = .BATT_WAIT_VOLT ∧ s.read_flag ≠ .I2C_STAT_NOTYET
      · obtain ⟨hst, hflag⟩ := hvolt
        rw [battery_poll_wait_volt_done s hst hflag] at hne
        exact absurd rfl hne
      · exact absurd (battery_poll_readings_kept s hcurr hvolt).1 hne
  · intro hne
    by_cases hvolt : s.batt_read_state = .BATT_WAIT_VOLT ∧ s.read_flag ≠ .I2C_STAT_NOTYET
    · obtain ⟨hst, hflag⟩ := hvolt
      refine ⟨hst, hflag, ?_, ?_⟩
      · rw [battery_poll_wait_volt_done s hst hflag]
      · rw [battery_poll_wait_volt_done s hst hflag]
    · by_cases hcurr : s.batt_read_state = .BATT_WAIT_CURR ∧ s.read_flag ≠ .I2C_STAT_NOTYET
      · obtain ⟨hst, hflag⟩ := hcurr
        rw [battery_poll_wait_curr_done s hst hflag] at hne
        exact absurd rfl hne
      · exact absurd (battery_poll_readings_kept s hcurr hvolt).2 hne

/-- Witness of C17: a poll that completes a current read of raw 100 changes the
published current and keeps the published voltage 77. -/
theorem readings_change_only_on_completion_witness :
    ({ init with batt_read_state := .BATT_WAIT_CURR, read_flag := .I2C_STAT_OK,
                 read_sample := 100, batt_read_voltage := 77 } : State).batt_read_state
        = .BATT_WAIT_CURR
      ∧ (battery_poll { init with batt_read_state := .BATT_WAIT_CURR,
                                  read_flag := .I2C_STAT_OK,
                                  read_sample := 100,
                                  batt_read_voltage := 77 }).batt_read_voltage = 77 :=
  ⟨((readings_change_only_on_completion
        { init with batt_read_state := .BATT_WAIT_CURR, read_flag := .I2C_STAT_OK,
                    read_sample := 100, batt_read_voltage := 77 }).1 (by decide)).1,
   ((readings_change_only_on_completion
        { init with batt_read_state := .BATT_WAIT_CURR, read_flag := .I2C_STAT_OK,
                    read_sample := 100, batt_read_voltage := 77 }).1 (by decide)).2.2.2⟩

/-! ### The piezo command -/

/-- The piezo case of the switch in `handle_write_req`, reached when the selector is
`POWERBOARD_WRITE_PIEZO`. -/
theorem handle_write_req_piezo (env : Env) (hwf : env.WellFormed) (s : State)
    (req : usb_setup_data) (hsel : req.wIndex = env.POWERBOARD_WRITE_PIEZO) :
    handle_write_req env s req
      = if env.piezo_recv req.wLength s.usb_data_buffer = false then
          ⟨USBD_REQ_HANDLED, s.call (Call.piezo_recv req.wLength s.usb_data_buffer)⟩
        else
          ⟨USBD_REQ_NOTSUPP, s.call (Call.piezo_recv req.wLength s.usb_data_buffer)⟩ := by
  have hnd := hwf.2
  simp only [Env.writeLabels, List.nodup_cons, List.mem_cons, List.mem_singleton,
    not_or] at hnd
  obtain ⟨⟨-, -, -, -, -, -, -, h0, -⟩, ⟨-, -, -, -, -, -, h1, -⟩, ⟨-, -, -, -, -, h2, -⟩,
    ⟨-, -, -, -, h3, -⟩, ⟨-, -, -, h4, -⟩, ⟨-, -, h5, -⟩, ⟨-, h6, -⟩, ⟨h7, -⟩, -⟩ := hnd
  unfold handle_write_req
  rw [hsel, if_neg (Ne.symm h0), if_neg (Ne.symm h1), if_neg (Ne.symm h2),
    if_neg (Ne.symm h3), if_neg (Ne.symm h4), if_neg (Ne.symm h5), if_neg (Ne.symm h6),
    if_neg (Ne.symm h7), if_pos rfl]
  cases env.piezo_recv req.wLength s.usb_data_buffer <;> simp

/-- C20: a write request with the `WritePiezo` selector makes exactly one driver call,
`piezo_recv` with the request's `wLength` and the USB data buffer, and changes nothing
else; it returns "handled" if and only if `piezo_recv` returned false and "not
supported" if and only if `piezo_recv` returned true. -/
theorem piezo_reply (env : Env) (hwf : env.WellFormed) (s : State) (req : usb_setup_data)
    (hsel : req.wIndex = env.POWERBOARD_WRITE_PIEZO) :
    (handle_write_req env s req).state
        = s.call (Call.piezo_recv req.wLength s.usb_data_buffer)
      ∧ ((handle_write_req env s req).result = USBD_REQ_HANDLED
          ↔ env.piezo_recv req.wLength s.usb_data_buffer = false)
      ∧ ((handle_write_req env s req).result = USBD_REQ_NOTSUPP
          ↔ env.piezo_recv req.wLength s.usb_data_buffer = true) := by
  rw [handle_write_req_piezo env hwf s req hsel]
  cases env.piezo_recv req.wLength s.usb_data_buffer <;> simp

/-- Witness of C20: the sample piezo driver accepts the payload and the request is
handled; the refusing driver makes the same request stall. -/
theorem piezo_reply_witness :
    (handle_write_req sampleEnv init ⟨0x00, 64, 0, 8, 4⟩).result = USBD_REQ_HANDLED
      ∧ (handle_write_req refusingEnv init ⟨0x00, 64, 0, 8, 4⟩).result = USBD_REQ_NOTSUPP :=
  ⟨(piezo_reply sampleEnv (by decide) init ⟨0x00, 64, 0, 8, 4⟩ rfl).2.1.mpr rfl,
   (piezo_reply refusingEnv (by decide) init ⟨0x00, 64, 0, 8, 4⟩ rfl).2.2.mpr rfl⟩

/-! ### End-to-end scenario -/

/-- The state at the end of the scenario: both reads were started, on the shunt
register and then on the bus-voltage register, and both readings are published. -/
theorem scenario_state :
    (runEvents init scenario).batt_read_current = 1200
      ∧ (runEvents init scenario).batt_read_voltage = 0
      ∧ (runEvents init scenario).batt_read_state = .BATT_PRE_CURR
      ∧ busStarts (runEvents init scenario).trace = 2 := by
  decide

/-- C15: from the initial state, after a tick, a successful read of the current
register with raw sample 100, a second tick and a successful read of the voltage
register with raw sample `0x07`, with `battery_poll` called after each event, the
published current is 1200 and the published voltage is 0; a `ReadBattery` request with
an 8-byte buffer is then handled with response length 8 and the payload 1200, 0 as two
32-bit words (bytes `B0 04 00 00 00 00 00 00`). -/
theorem end_to_end_scenario (env : Env) (hwf : env.WellFormed) (req : usb_setup_data)
    (hsel : req.wIndex = env.POWERBOARD_READ_BATT) (buf : Buf) :
    (runEvents init scenario).batt_read_current = 1200
      ∧ (runEvents init scenario).batt_read_voltage = 0
      ∧ (handle_read_req env (runEvents init scenario) req 8 buf).result = USBD_REQ_HANDLED
      ∧ (handle_read_req env (runEvents init scenario) req 8 buf).len = 8
      ∧ load32 (handle_read_req env (runEvents init scenario) req 8 buf).buf 0 = 1200
      ∧ load32 (handle_read_req env (runEvents init scenario) req 8 buf).buf 4 = 0
      ∧ (List.range 8).map (handle_read_req env (runEvents init scenario) req 8 buf).buf
          = [0xB0, 0x04, 0, 0, 0, 0, 0, 0] := by
  have hc : read_battery_current (runEvents init scenario) = 1200 := scenario_state.1
  have hv : read_battery_voltage (runEvents init scenario) = 0 := by decide
  rw [handle_read_req_batt env hwf _ req hsel, hc, hv]
  refine ⟨scenario_state.1, scenario_state.2.1, ?_, ?_, ?_, ?_, ?_⟩
  · rfl
  · rfl
  · simp [load32, store32]
  · simp [load32, store32]
  · simp [List.range, List.range.loop, store32]

/-- Witness of C15 with the sample selectors and a buffer full of `0xFF`. -/
theorem end_to_end_scenario_witness :
    load32 (handle_read_req sampleEnv (runEvents init scenario) ⟨0x80, 64, 0, 7, 8⟩ 8
        (fun _ => 0xFF)).buf 0 = 1200
      ∧ load32 (handle_read_req sampleEnv (runEvents init scenario) ⟨0x80, 64, 0, 7, 8⟩ 8
          (fun _ => 0xFF)).buf 4 = 0 :=
  ⟨(end_to_end_scenario sampleEnv (by decide) ⟨0x80, 64, 0, 7, 8⟩ rfl
      (fun _ => 0xFF)).2.2.2.2.1,
   (end_to_end_scenario sampleEnv (by decide) ⟨0x80, 64, 0, 7, 8⟩ rfl
      (fun _ => 0xFF)).2.2.2.2.2.1⟩

/-! ### The read cycle: bus starts and ticks -/

theorem busStarts_append (a b : List Call) : busStarts (a ++ b) = busStarts a + busStarts b := by
  induction a with
  | nil => simp [busStarts]
  | cons c cs ih =>
    cases c <;> simp [busStarts, ih]
    all_goals omega

theorem busStarts_replicate_clock (n : Nat) :
    busStarts (List.replicate n Call.clock_isr) = 0 := by
  induction n with
  | zero => rfl
  | succ n ih => simpa [List.replicate_succ, busStarts] using ih

/-- The four ways a call of `battery_poll` can go: nothing happens, a tick starts a
read, a current read is completed, a voltage read is completed. -/
theorem battery_poll_cases (s : State) :
    battery_poll s = s
      ∨ (s.batt_read_state.awaitsTick = true ∧ s.batt_do_read = true
          ∧ battery_poll s
            = { s with batt_do_read := false,
                       read_flag := .I2C_STAT_NOTYET,
                       batt_read_state := s.batt_read_state.next,
                       trace := s.trace
                         ++ [Call.i2c_init_read INA219_ADDR_BATT s.batt_read_state.register] })
      ∨ (s.batt_read_state = .BATT_WAIT_CURR ∧ s.read_flag ≠ .I2C_STAT_NOTYET
          ∧ battery_poll s
            = { s with batt_read_current :=
                         if i2c_error_flag s.read_flag then 0
                         else battery_current s.read_sample,
                       batt_read_state := .BATT_PRE_VOLT })
      ∨ (s.batt_read_state = .BATT_WAIT_VOLT ∧ s.read_flag ≠ .I2C_STAT_NOTYET
          ∧ battery_poll s
            = { s with batt_read_voltage :=
                         if i2c_error_flag s.read_flag then 0
                         else battery_voltage s.read_sample,
                       batt_read_state := .BATT_PRE_CURR }) := by
  cases hst : s.batt_read_state
  · cases htick : s.batt_do_read
    · exact Or.inl (battery_poll_await_idle s (by rw [hst]; rfl) htick)
    · exact Or.inr (Or.inl ⟨rfl, rfl, battery_poll_pre_curr_tick s hst htick⟩)
  · by_cases hflag : s.read_flag = .I2C_STAT_NOTYET
    · exact Or.inl (battery_poll_wait_notyet s (by rw [hst]; rfl) hflag)
    · exact Or.inr (Or.inr (Or.inl ⟨rfl, hflag, battery_poll_wait_curr_done s hst hflag⟩))
  · cases htick : s.batt_do_read
    · exact Or.inl (battery_poll_await_idle s (by rw [hst]; rfl) htick)
    · exact Or.inr (Or.inl ⟨rfl, rfl, battery_poll_pre_volt_tick s hst htick⟩)
  · by_cases hflag : s.read_flag = .I2C_STAT_NOTYET
    · exact Or.inl (battery_poll_wait_notyet s (by rw [hst]; rfl) hflag)
    · exact Or.inr (Or.inr (Or.inr ⟨rfl, hflag, battery_poll_wait_volt_done s hst hflag⟩))

/-- State after `n + 1` timer interrupts: the tick flag is set and the wall clock has
been advanced `n + 1` times. -/
theorem tim2_isr_iterate (s : State) (n : Nat) :
    tim2_isr^[n + 1] s
      = { s with batt_do_read := true,
                 trace := s.trace ++ List.replicate (n + 1) Call.clock_isr } := by
  induction n with
  | zero => rfl
  | succ n ih =>
    rw [Function.iterate_succ_apply', ih, List.replicate_succ' (n + 1)]
    simp [tim2_isr, State.call]

/-- Without a timer interrupt the tick flag stays clear and no bus read is started. -/
theorem noTick_event_keeps (s : State) (e : Event) (he : e.NoTick)
    (hclear : s.batt_do_read = false) :
    (e.apply s).batt_do_read = false
      ∧ busStarts (e.apply s).trace = busStarts s.trace := by
  cases e with
  | tick => exact absurd he (by simp [Event.NoTick])
  | bus sample flag => exact ⟨hclear, rfl⟩
  | poll =>
    show (battery_poll s).batt_do_read = false
      ∧ busStarts (battery_poll s).trace = busStarts s.trace
    rcases battery_poll_cases s with h | ⟨-, htick, -⟩ | ⟨-, -, h⟩ | ⟨-, -, h⟩
    · rw [h]
      exact ⟨hclear, rfl⟩
    · rw [hclear] at htick
      exact absurd htick (by decide)
    · rw [h]
      exact ⟨hclear, rfl⟩
    · rw [h]
      exact ⟨hclear, rfl⟩

theorem noTick_run_keeps (es : List Event) (s : State) (hes : ∀ e ∈ es, e.NoTick)
    (hclear : s.batt_do_read = false) :
    busStarts (runEvents s es).trace = busStarts s.trace := by
  induction es generalizing s with
  | nil => rfl
  | cons e es ih =>
    have he := noTick_event_keeps s e (hes e (List.mem_cons_self e es)) hclear
    have step : runEvents s (e :: es) = runEvents (e.apply s) es := rfl
    rw [step, ih (e.apply s) (fun x hx => hes x (List.mem_cons_of_mem e hx)) he.1, he.2]

/-- C14: for every `n ≥ 1`, `n` executions of `tim2_isr` followed by one `battery_poll`
in an await state start exactly one bus read (the trace gains `n` clock ticks and one
`i2c_init_read` of the register of that state) and leave the tick flag clear; any
further polls and bus events without a timer interrupt start no further read; and a
`battery_poll` in an await state with the tick flag clear changes nothing at all. -/
theorem ticks_coalesce (s : State) (hst : s.batt_read_state.awaitsTick = true) (n : Nat)
    (hn : 1 ≤ n) :
    (battery_poll (tim2_isr^[n] s)).trace
        = s.trace ++ List.replicate n Call.clock_isr
            ++ [Call.i2c_init_read INA219_ADDR_BATT s.batt_read_state.register]
      ∧ busStarts (battery_poll (tim2_isr^[n] s)).trace = busStarts s.trace + 1
      ∧ (battery_poll (tim2_isr^[n] s)).batt_do_read = false
      ∧ (battery_poll (tim2_isr^[n] s)).batt_read_state = s.batt_read_state.next
      ∧ (∀ es : List Event, (∀ e ∈ es, e.NoTick) →
          busStarts (runEvents (battery_poll (tim2_isr^[n] s)) es).trace
            = busStarts s.trace + 1)
      ∧ (s.batt_do_read = false → battery_poll s = s) := by
  obtain ⟨m, rfl⟩ : ∃ m, n = m + 1 := ⟨n - 1, by omega⟩
  have hpoll : battery_poll (tim2_isr^[m + 1] s)
      = { s with batt_do_read := false,
                 read_flag := .I2C_STAT_NOTYET,
                 batt_read_state := s.batt_read_state.next,
                 trace := s.trace ++ List.replicate (m + 1) Call.clock_isr
                   ++ [Call.i2c_init_read INA219_ADDR_BATT s.batt_read_state.register] } := by
    have hs : s.batt_read_state = .BATT_PRE_CURR ∨ s.batt_read_state = .BATT_PRE_VOLT := by
      cases h : s.batt_read_state <;> simp_all [BattReadState.awaitsTick]
    have ht := tim2_isr_iterate s m
    have htick : (tim2_isr^[m + 1] s).batt_do_read = true := by rw [ht]
    have hstate : (tim2_isr^[m + 1] s).batt_read_state = s.batt_read_state := by rw [ht]
    rcases hs with hs | hs
    · rw [battery_poll_pre_curr_tick _ (hstate.trans hs) htick, ht, hs]
      rfl
    · rw [battery_poll_pre_volt_tick _ (hstate.trans hs) htick, ht, hs]
      rfl
  have hcount : busStarts (battery_poll (tim2_isr^[m + 1] s)).trace
      = busStarts s.trace + 1 := by
    rw [hpoll]
    simp [busStarts_append, busStarts_replicate_clock, busStarts]
  refine ⟨by rw [hpoll], hcount, by rw [hpoll], by rw [hpoll], ?_, ?_⟩
  · intro es hes
    rw [noTick_run_keeps es _ hes (by rw [hpoll]), hcount]
  · intro hclear
    exact battery_poll_await_idle s hst hclear

/-- Witness of C14: three timer interrupts and one poll from the initial state start
one read, of the shunt register. -/
theorem ticks_coalesce_witness :
    (battery_poll (tim2_isr^[3] init)).trace
        = [Call.clock_isr, Call.clock_isr, Call.clock_isr,
            Call.i2c_init_read INA219_ADDR_BATT INA219_REG_VSHUNT]
      ∧ busStarts (battery_poll (tim2_isr^[3] init)).trace = 1 :=
  ⟨(ticks_coalesce init rfl 3 (by decide)).1, (ticks_coalesce init rfl 3 (by decide)).2.1⟩

/-- In an await state reached by the read cycle no transaction is outstanding. -/
theorem event_keeps_idle (s : State) (e : Event) (he : e.Completes)
    (hinv : s.batt_read_state.awaitsTick = true → ¬ Outstanding s) :
    (e.apply s).batt_read_state.awaitsTick = true → ¬ Outstanding (e.apply s) := by
  cases e with
  | tick =>
    intro hst hout
    apply hinv hst
    obtain ⟨hpos, hflag⟩ := hout
    refine ⟨?_, hflag⟩
    have hpos1 : 0 < busStarts (s.trace ++ [Call.clock_isr]) := hpos
    rw [busStarts_append] at hpos1
    simpa [busStarts] using hpos1
  | bus sample flag =>
    intro _ hout
    exact he hout.2
  | poll =>
    show (battery_poll s).batt_read_state.awaitsTick = true → ¬ Outstanding (battery_poll s)
    rcases battery_poll_cases s with h | ⟨hst, -, h⟩ | ⟨-, hflag, h⟩ | ⟨-, hflag, h⟩
    · rw [h]
      exact hinv
    · rw [h]
      intro hnext
      have hs : s.batt_read_state = .BATT_PRE_CURR ∨ s.batt_read_state = .BATT_PRE_VOLT := by
        cases hc : s.batt_read_state <;> simp_all [BattReadState.awaitsTick]
      rcases hs with hs | hs <;> rw [hs] at hnext <;>
        simp [BattReadState.next, BattReadState.awaitsTick] at hnext
    · rw [h]
      intro _ hout
      exact hflag hout.2
    · rw [h]
      intro _ hout
      exact hflag hout.2

theorem run_keeps_idle (es : List Event) (s : State) (hes : ∀ e ∈ es, e.Completes)
    (hinv : s.batt_read_state.awaitsTick = true → ¬ Outstanding s) :
    (runEvents s es).batt_read_state.awaitsTick = true → ¬ Outstanding (runEvents s es) := by
  induction es generalizing s with
  | nil => exact hinv
  | cons e es ih =>
    exact ih (e.apply s) (fun x hx => hes x (List.mem_cons_of_mem e hx))
      (event_keeps_idle s e (hes e (List.mem_cons_self e es)) hinv)

/-- C13: start with no transaction outstanding, as in `BATT_PRE_CURR` of the initial
state (any other read state does as well), and let any sequence of timer ticks, bus
completions (Ok or Error) and `battery_poll` calls happen.  Then
every further event either keeps the read state or moves it to its successor in the
cycle PRE_CURR, WAIT_CURR, PRE_VOLT, WAIT_VOLT, PRE_CURR; and either it starts no bus
read, or it is a `battery_poll` in an await state that starts exactly one bus read,
at a moment when no previously started transaction is outstanding. -/
theorem read_cycle_order (s0 : State)
    (hidle : ¬ Outstanding s0) (es : List Event) (hes : ∀ e ∈ es, e.Completes)
    (e : Event) (he : e.Completes) :
    ((e.apply (runEvents s0 es)).batt_read_state = (runEvents s0 es).batt_read_state
        ∨ (e.apply (runEvents s0 es)).batt_read_state
            = (runEvents s0 es).batt_read_state.next)
      ∧ (busStarts (e.apply (runEvents s0 es)).trace = busStarts (runEvents s0 es).trace
          ∨ (e = Event.poll
              ∧ busStarts (e.apply (runEvents s0 es)).trace
                  = busStarts (runEvents s0 es).trace + 1
              ∧ (runEvents s0 es).batt_read_state.awaitsTick = true
              ∧ ¬ Outstanding (runEvents s0 es))) := by
  have hinv := run_keeps_idle es s0 hes (fun _ => hidle)
  generalize runEvents s0 es = s at hinv
  cases e with
  | tick =>
    refine ⟨Or.inl rfl, Or.inl ?_⟩
    have htr : (tim2_isr s).trace = s.trace ++ [Call.clock_isr] := rfl
    show busStarts (tim2_isr s).trace = busStarts s.trace
    rw [htr, busStarts_append]
    simp [busStarts]
  | bus sample flag => exact ⟨Or.inl rfl, Or.inl rfl⟩
  | poll =>
    show ((battery_poll s).batt_read_state = s.batt_read_state
        ∨ (battery_poll s).batt_read_state = s.batt_read_state.next)
      ∧ (busStarts (battery_poll s).trace = busStarts s.trace
        ∨ (Event.poll = Event.poll
            ∧ busStarts (battery_poll s).trace = busStarts s.trace + 1
            ∧ s.batt_read_state.awaitsTick = true ∧ ¬ Outstanding s))
    rcases battery_poll_cases s with h | ⟨hst, -, h⟩ | ⟨hst, -, h⟩ | ⟨hst, -, h⟩
    · rw [h]
      exact ⟨Or.inl rfl, Or.inl rfl⟩
    · rw [h]
      refine ⟨Or.inr rfl, Or.inr ⟨rfl, ?_, hst, hinv hst⟩⟩
      simp [busStarts_append, busStarts]
    · rw [h]
      refine ⟨Or.inr ?_, Or.inl rfl⟩
      rw [hst]
      rfl
    · rw [h]
      refine ⟨Or.inr ?_, Or.inl rfl⟩
      rw [hst]
      rfl

/-- Witness of C13: after a completed current read and a second tick, the poll that
starts the voltage read finds no transaction outstanding. -/
theorem read_cycle_order_witness :
    (battery_poll (runEvents init
        [Event.tick, Event.poll, Event.bus 100 i2c_stat.I2C_STAT_OK, Event.poll,
         Event.tick])).batt_read_state
        = (runEvents init
            [Event.tick, Event.poll, Event.bus 100 i2c_stat.I2C_STAT_OK, Event.poll,
             Event.tick]).batt_read_state
      ∨ (battery_poll (runEvents init
          [Event.tick, Event.poll, Event.bus 100 i2c_stat.I2C_STAT_OK, Event.poll,
           Event.tick])).batt_read_state
        = (runEvents init
            [Event.tick, Event.poll, Event.bus 100 i2c_stat.I2C_STAT_OK, Event.poll,
             Event.tick]).batt_read_state.next :=
  (read_cycle_order init (by decide)
    [Event.tick, Event.poll, Event.bus 100 i2c_stat.I2C_STAT_OK, Event.poll, Event.tick]
    (by decide) Event.poll (by decide)).1

/-! ### Stalled requests -/

/-- A read request that is stalled leaves the response length and the buffer alone. -/
theorem handle_read_req_stall (env : Env) (s : State) (req : usb_setup_data)
    (len : Int) (buf : Buf) :
    (handle_read_req env s req len buf).result = USBD_REQ_NOTSUPP →
      (handle_read_req env s req len buf).len = len
        ∧ (handle_read_req env s req len buf).buf = buf := by
  unfold handle_read_req read_output
  repeat' apply readOut_ite_ind (fun r => r.result = USBD_REQ_NOTSUPP → r.len = len ∧ r.buf = buf)
  all_goals simp

/-- A read request with fewer than 4 bytes of buffer is stalled, whatever its
selector. -/
theorem handle_read_req_short (env : Env) (s : State) (req : usb_setup_data)
    (len : Int) (buf : Buf) (hlen : len < 4) :
    (handle_read_req env s req len buf).result = USBD_REQ_NOTSUPP := by
  have h8 : len < 8 := by omega
  unfold handle_read_req read_output
  simp only [if_pos hlen, if_pos h8]
  repeat' apply readOut_ite_ind (fun r => r.result = USBD_REQ_NOTSUPP)
  all_goals rfl

/-- A write request that is stalled has either made no driver call at all or exactly
the one `piezo_recv` call that refused its payload. -/
theorem handle_write_req_stall (env : Env) (s : State) (req : usb_setup_data) :
    (handle_write_req env s req).result = USBD_REQ_NOTSUPP →
      StalledWrite env s req (handle_write_req env s req).state := by
  unfold handle_write_req
  simp only []
  cases hp : env.piezo_recv req.wLength s.usb_data_buffer
  all_goals
    simp only [Bool.not_false, Bool.not_true, if_true]
    repeat' apply writeOut_ite_ind (fun w => w.result = USBD_REQ_NOTSUPP → StalledWrite env s req w.state)
    all_goals simp [StalledWrite, hp]

/-- C16 as stated fails: with a piezo driver that refuses the payload, a `WritePiezo`
request is answered with "not supported" by `handle_write_req` and by `control`, and
the piezo driver has been called. -/
theorem stalled_piezo_request_called_driver :
    (handle_write_req refusingEnv init ⟨0x00, 64, 0, 8, 4⟩).result = USBD_REQ_NOTSUPP
      ∧ (control refusingEnv init ⟨0x00, 64, 0, 8, 4⟩ 4 (fun _ => 0)).result
          = USBD_REQ_NOTSUPP
      ∧ (handle_write_req refusingEnv init ⟨0x00, 64, 0, 8, 4⟩).state.trace
          = [Call.piezo_recv 4 init.usb_data_buffer]
      ∧ (control refusingEnv init ⟨0x00, 64, 0, 8, 4⟩ 4 (fun _ => 0)).state.trace
          ≠ init.trace := by
  refine ⟨rfl, rfl, rfl, ?_⟩
  have h : (control refusingEnv init ⟨0x00, 64, 0, 8, 4⟩ 4 (fun _ => 0)).state.trace
      = [Call.piezo_recv 4 init.usb_data_buffer] := rfl
  rw [h]
  simp [init]

/-- A stalled write request whose selector is not `POWERBOARD_WRITE_PIEZO` has made no
driver call: the state is untouched. -/
theorem handle_write_req_stall_other (env : Env) (s : State) (req : usb_setup_data)
    (hsel : req.wIndex ≠ env.POWERBOARD_WRITE_PIEZO) :
    (handle_write_req env s req).result = USBD_REQ_NOTSUPP →
      (handle_write_req env s req).state = s := by
  unfold handle_write_req
  simp only [if_neg hsel]
  repeat' apply writeOut_ite_ind (fun w => w.result = USBD_REQ_NOTSUPP → w.state = s)
  all_goals simp

/-- A stalled write request whose selector is `POWERBOARD_WRITE_PIEZO` has reached the
piezo case: `piezo_recv` returned true and its call is the one change of the state. -/
theorem handle_write_req_stall_piezo (env : Env) (s : State) (req : usb_setup_data)
    (hsel : req.wIndex = env.POWERBOARD_WRITE_PIEZO) :
    (handle_write_req env s req).result = USBD_REQ_NOTSUPP →
      env.piezo_recv req.wLength s.usb_data_buffer = true
        ∧ (handle_write_req env s req).state
            = s.call (Call.piezo_recv req.wLength s.usb_data_buffer) := by
  unfold handle_write_req
  simp only [if_pos hsel]
  cases hp : env.piezo_recv req.wLength s.usb_data_buffer
  all_goals
    simp only [Bool.not_false, Bool.not_true, if_true]
    repeat' apply writeOut_ite_ind (fun w => w.result = USBD_REQ_NOTSUPP → _ ∧ w.state = s.call (Call.piezo_recv req.wLength s.usb_data_buffer))
    all_goals simp

/-- C16, amended: a request that `handle_read_req`, `handle_write_req` or `control`
answers with "not supported" leaves the response length, the response buffer, the
published telemetry and the bootloader flag unchanged and has invoked no output or LED
operation.  If it is not a write request with the `WritePiezo` selector it has made no
driver call at all: the state is untouched.  A write request with the `WritePiezo`
selector always makes exactly one driver call, `piezo_recv` with the request's
`wLength` and the USB data buffer, and is stalled exactly when that call returns true;
this one call is then the only change of the state.  Every read with a buffer length
below 4, and every `ReadBattery` with a buffer length below 8, is a stalled request. -/
theorem stalled_request_effect (env : Env) (s : State) (req : usb_setup_data) :
    (∀ (len : Int) (buf : Buf),
        (handle_read_req env s req len buf).result = USBD_REQ_NOTSUPP →
          (handle_read_req env s req len buf).len = len
            ∧ (handle_read_req env s req len buf).buf = buf)
      ∧ ((handle_write_req env s req).result = USBD_REQ_NOTSUPP →
          StalledWrite env s req (handle_write_req env s req).state)
      ∧ (∀ (len : Nat) (buf : Buf), len < 2 ^ 16 →
          (control env s req len buf).result = USBD_REQ_NOTSUPP →
            (control env s req len buf).len = len
              ∧ (control env s req len buf).buf = buf
              ∧ StalledWrite env s req (control env s req len buf).state)
      ∧ (∀ t : State, StalledWrite env s req t →
          t.batt_read_current = s.batt_read_current
            ∧ t.batt_read_voltage = s.batt_read_voltage
            ∧ t.re_enter_bootloader = s.re_enter_bootloader
            ∧ (t.trace = s.trace
                ∨ t.trace = s.trace ++ [Call.piezo_recv req.wLength s.usb_data_buffer]))
      ∧ (∀ (len : Int) (buf : Buf), len < 4 →
          (handle_read_req env s req len buf).result = USBD_REQ_NOTSUPP)
      ∧ (env.WellFormed → req.wIndex = env.POWERBOARD_READ_BATT →
          ∀ (len : Int) (buf : Buf), len < 8 →
            (handle_read_req env s req len buf).result = USBD_REQ_NOTSUPP)
      ∧ (req.wIndex ≠ env.POWERBOARD_WRITE_PIEZO →
          (handle_write_req env s req).result = USBD_REQ_NOTSUPP →
            (handle_write_req env s req).state = s)
      ∧ (req.wIndex = env.POWERBOARD_WRITE_PIEZO →
          (handle_write_req env s req).result = USBD_REQ_NOTSUPP →
            env.piezo_recv req.wLength s.usb_data_buffer = true
              ∧ (handle_write_req env s req).state
                  = s.call (Call.piezo_recv req.wLength s.usb_data_buffer))
      ∧ (env.WellFormed → req.wIndex = env.POWERBOARD_WRITE_PIEZO →
          (handle_write_req env s req).state
              = s.call (Call.piezo_recv req.wLength s.usb_data_buffer)
            ∧ ((handle_write_req env s req).result = USBD_REQ_NOTSUPP
                ↔ env.piezo_recv req.wLength s.usb_data_buffer = true))
      ∧ (∀ (len : Nat) (buf : Buf),
          (control env s req len buf).result = USBD_REQ_NOTSUPP →
            ¬ (req.bmRequestType &&& USB_REQ_TYPE_IN = 0
                ∧ req.wIndex = env.POWERBOARD_WRITE_PIEZO) →
            (control env s req len buf).state = s)
      ∧ (∀ (len : Nat) (buf : Buf),
          (control env s req len buf).result = USBD_REQ_NOTSUPP →
            req.bmRequestType &&& USB_REQ_TYPE_IN = 0 →
            req.wIndex = env.POWERBOARD_WRITE_PIEZO →
            env.piezo_recv req.wLength s.usb_data_buffer = true
              ∧ (control env s req len buf).state
                  = s.call (Call.piezo_recv req.wLength s.usb_data_buffer))
      ∧ (∀ (len : Nat) (buf : Buf), env.WellFormed → req.bRequest = 64 →
          req.bmRequestType &&& USB_REQ_TYPE_IN = 0 →
          req.wIndex = env.POWERBOARD_WRITE_PIEZO →
          (control env s req len buf).state
              = s.call (Call.piezo_recv req.wLength s.usb_data_buffer)
            ∧ ((control env s req len buf).result = USBD_REQ_NOTSUPP
                ↔ env.piezo_recv req.wLength s.usb_data_buffer = true)) := by
  have hpiezo : env.WellFormed → req.wIndex = env.POWERBOARD_WRITE_PIEZO →
      (handle_write_req env s req).state
          = s.call (Call.piezo_recv req.wLength s.usb_data_buffer)
        ∧ ((handle_write_req env s req).result = USBD_REQ_NOTSUPP
            ↔ env.piezo_recv req.wLength s.usb_data_buffer = true) := by
    intro hwf hsel
    rw [handle_write_req_piezo env hwf s req hsel]
    cases env.piezo_recv req.wLength s.usb_data_buffer <;> simp
  refine ⟨handle_read_req_stall env s req, handle_write_req_stall env s req, ?_, ?_,
    fun len buf hlen => handle_read_req_short env s req len buf hlen, ?_,
    handle_write_req_stall_other env s req, handle_write_req_stall_piezo env s req,
    hpiezo, ?_, ?_, ?_⟩
  · intro len buf hlen
    unfold control
    split
    · intro h
      exact usbd_request_return_codes.noConfusion h
    · split
      · intro h
        have hr := handle_read_req_stall env s req (len : Int) buf h
        refine ⟨?_, hr.2, Or.inl rfl⟩
        show (handle_read_req env s req (len : Int) buf).len.toNat % 2 ^ 16 = len
        rw [hr.1, Int.toNat_ofNat]
        exact Nat.mod_eq_of_lt hlen
      · intro h
        exact ⟨rfl, rfl, handle_write_req_stall env s req h⟩
  · rintro t (rfl | ⟨-, rfl⟩)
    · exact ⟨rfl, rfl, rfl, Or.inl rfl⟩
    · exact ⟨rfl, rfl, rfl, Or.inr rfl⟩
  · intro hwf hsel len buf hlen
    rw [handle_read_req_batt env hwf s req hsel, if_pos hlen]
  · intro len buf
    unfold control
    split
    · intro h
      exact usbd_request_return_codes.noConfusion h
    · split
      · intro _ _
        rfl
      · rename_i hdir
        intro h hno
        have hsel : req.wIndex ≠ env.POWERBOARD_WRITE_PIEZO :=
          fun hs => hno ⟨not_not.mp hdir, hs⟩
        exact handle_write_req_stall_other env s req hsel h
  · intro len buf
    unfold control
    split
    · intro h
      exact usbd_request_return_codes.noConfusion h
    · split
      · rename_i hdir
        intro _ hzero
        exact absurd hzero hdir
      · intro h _ hsel
        exact handle_write_req_stall_piezo env s req hsel h
  · intro len buf hwf hcode hdir hsel
    unfold control
    rw [if_neg (not_not.mpr hcode), if_neg (not_not.mpr hdir)]
    exact hpiezo hwf hsel

/-- Witness of the amended C16: the refused `WritePiezo` request of the counterexample
has made its one `piezo_recv` call, a stalled write with the unknown selector 200 has
left the state untouched, and a `ReadBattery` request with 7 bytes of buffer is
stalled. -/
theorem stalled_request_effect_witness :
    (handle_write_req refusingEnv init ⟨0x00, 64, 0, 8, 4⟩).state
        = init.call (Call.piezo_recv 4 init.usb_data_buffer)
      ∧ (handle_write_req refusingEnv init ⟨0x00, 64, 0, 200, 4⟩).state = init
      ∧ (handle_read_req sampleEnv init ⟨0x80, 64, 0, 7, 7⟩ 7 (fun _ => 0)).result
          = USBD_REQ_NOTSUPP :=
  ⟨((stalled_request_effect refusingEnv init ⟨0x00, 64, 0, 8, 4⟩).2.2.2.2.2.2.2.1
      rfl rfl).2,
   (stalled_request_effect refusingEnv init ⟨0x00, 64, 0, 200, 4⟩).2.2.2.2.2.2.1
      (by decide) rfl,
   (stalled_request_effect sampleEnv init ⟨0x80, 64, 0, 7, 7⟩).2.2.2.2.2.1 (by decide) rfl 7
      (fun _ => 0) (by decide)⟩

/-! ### Button debounce -/

/-- Bits of a 32-bit debounce register after one shift: bit 0 is the new sample, bit
`j + 1` is the old bit `j`, and nothing is kept from bit 32 upwards. -/
theorem debounce_step_testBit (r b j : Nat) (hb : b = 0 ∨ b = 1) :
    ((((r <<< 1) % 2 ^ 32) ||| b) % 2 ^ 32).testBit j
      = (decide (j < 32) && (if j = 0 then decide (b = 1) else r.testBit (j - 1))) := by
  rw [Nat.testBit_mod_two_pow, Nat.testBit_or, Nat.testBit_mod_two_pow,
    Nat.testBit_shiftLeft]
  cases j with
  | zero => rcases hb with rfl | rfl <;> simp
  | succ k => rcases hb with rfl | rfl <;> simp [Nat.testBit_succ]

theorem button_polls_snoc (s : State) (ps : List (Bool × Bool)) (p : Bool × Bool) :
    button_polls s (ps ++ [p]) = button_poll p.1 p.2 (button_polls s ps) := by
  simp [button_polls, List.foldl_append]

/-- Bit `j` of the internal debounce register tells whether the internal button was
pressed `j` polls ago, for the 32 most recent polls. -/
theorem debounce_int_testBit (s0 : State) (h0 : s0.debounce_int = 0)
    (ps : List (Bool × Bool)) (j : Nat) :
    (button_polls s0 ps).debounce_int.testBit j
      = (decide (j < 32) && (pressedInt ps).getD j false) := by
  induction ps using List.reverseRecOn generalizing j with
  | nil => simp [button_polls, pressedInt, h0]
  | append_singleton ps p ih =>
    have hreg : (button_polls s0 (ps ++ [p])).debounce_int
        = ((((button_polls s0 ps).debounce_int <<< 1) % 2 ^ 32)
            ||| (if p.1 then 0 else 1)) % 2 ^ 32 := by
      rw [button_polls_snoc]
      rfl
    have hhist : pressedInt (ps ++ [p]) = (!p.1) :: pressedInt ps := by
      simp [pressedInt]
    rw [hreg, hhist, debounce_step_testBit _ _ j (by cases p.1 <;> simp)]
    cases j with
    | zero => cases p.1 <;> simp
    | succ k =>
      rw [List.getD_cons_succ, if_neg (Nat.succ_ne_zero k), Nat.add_sub_cancel, ih k]
      by_cases hk : k + 1 < 32
      · have hk1 : k < 32 := by omega
        simp [hk, hk1]
      · simp [hk]

/-- Bit `j` of the external debounce register tells whether the external button was
pressed `j` polls ago, for the 32 most recent polls. -/
theorem debounce_ext_testBit (s0 : State) (h0 : s0.debounce_ext = 0)
    (ps : List (Bool × Bool)) (j : Nat) :
    (button_polls s0 ps).debounce_ext.testBit j
      = (decide (j < 32) && (pressedExt ps).getD j false) := by
  induction ps using List.reverseRecOn generalizing j with
  | nil => simp [button_polls, pressedExt, h0]
  | append_singleton ps p ih =>
    have hreg : (button_polls s0 (ps ++ [p])).debounce_ext
        = ((((button_polls s0 ps).debounce_ext <<< 1) % 2 ^ 32)
            ||| (if p.2 then 0 else 1)) % 2 ^ 32 := by
      rw [button_polls_snoc]
      rfl
    have hhist : pressedExt (ps ++ [p]) = (!p.2) :: pressedExt ps := by
      simp [pressedExt]
    rw [hreg, hhist, debounce_step_testBit _ _ j (by cases p.2 <;> simp)]
    cases j with
    | zero => cases p.2 <;> simp
    | succ k =>
      rw [List.getD_cons_succ, if_neg (Nat.succ_ne_zero k), Nat.add_sub_cancel, ih k]
      by_cases hk : k + 1 < 32
      · have hk1 : k < 32 := by omega
        simp [hk, hk1]
      · simp [hk]

/-- The first `n` entries of a history exist and are all `true` exactly when every
index below `n` reads `true`. -/
theorem history_all_pressed (n : Nat) (l : List Bool) :
    (∀ j : Nat, j < n → l.getD j false = true)
      ↔ n ≤ l.length ∧ ∀ b ∈ l.take n, b = true := by
  induction n generalizing l with
  | zero => simp
  | succ n ih =>
    cases l with
    | nil =>
      constructor
      · intro h
        have := h 0 (Nat.succ_pos n)
        simp at this
      · rintro ⟨h, -⟩
        simp at h
    | cons b bs =>
      constructor
      · intro h
        have hb : b = true := by simpa using h 0 (Nat.succ_pos n)
        have hrest := (ih bs).mp (fun j hj => by
          simpa using h (j + 1) (Nat.succ_lt_succ hj))
        refine ⟨by simpa using hrest.1, ?_⟩
        intro x hx
        rw [List.take_succ_cons, List.mem_cons] at hx
        rcases hx with rfl | hx
        · exact hb
        · exact hrest.2 x hx
      · rintro ⟨hlen, hall⟩ j hj
        have hrest := (ih bs).mpr ⟨by simpa using hlen, fun x hx =>
          hall x (by rw [List.take_succ_cons]; exact List.mem_cons_of_mem b hx)⟩
        cases j with
        | zero =>
          rw [List.getD_cons_zero]
          exact hall b (by rw [List.take_succ_cons]; exact List.mem_cons_self b _)
        | succ k =>
          rw [List.getD_cons_succ]
          exact hrest k (Nat.lt_of_succ_lt_succ hj)

/-- A register whose bits below 32 follow a history is all ones exactly when the 32
most recent entries of the history exist and are all `true`. -/
theorem register_all_ones (r : Nat) (hist : List Bool)
    (hbits : ∀ j : Nat, r.testBit j = (decide (j < 32) && hist.getD j false)) :
    r = 0xFFFFFFFF ↔ 32 ≤ hist.length ∧ ∀ b ∈ hist.take 32, b = true := by
  rw [← history_all_pressed 32 hist]
  constructor
  · intro hr j hj
    have h1 := hbits j
    rw [hr] at h1
    have h2 : Nat.testBit 0xFFFFFFFF j = decide (j < 32) :=
      Nat.testBit_two_pow_sub_one 32 j
    rw [h2] at h1
    simpa [hj] using h1.symm
  · intro hall
    apply Nat.eq_of_testBit_eq
    intro j
    have h2 : Nat.testBit 0xFFFFFFFF j = decide (j < 32) :=
      Nat.testBit_two_pow_sub_one 32 j
    rw [hbits j, h2]
    by_cases hj : j < 32
    · rw [hall j hj]
      simp [hj]
    · simp [hj]

/-- The internal register is all ones exactly when at least 32 polls have happened and
the internal pin read low on each of the 32 most recent ones. -/
theorem debounce_int_all_ones (s0 : State) (h0 : s0.debounce_int = 0)
    (ps : List (Bool × Bool)) :
    (button_polls s0 ps).debounce_int = 0xFFFFFFFF
      ↔ 32 ≤ ps.length ∧ ∀ p ∈ ps.reverse.take 32, p.1 = false := by
  have hlen : (pressedInt ps).length = ps.length := by simp [pressedInt]
  have htake : (pressedInt ps).take 32 = (ps.reverse.take 32).map (fun p => !p.1) := by
    unfold pressedInt
    rw [List.map_take]
  rw [register_all_ones _ (pressedInt ps) (debounce_int_testBit s0 h0 ps), hlen, htake]
  constructor
  · rintro ⟨h1, h2⟩
    refine ⟨h1, fun p hp => ?_⟩
    have hb := h2 (!p.1) (List.mem_map_of_mem _ hp)
    simpa using hb
  · rintro ⟨h1, h2⟩
    refine ⟨h1, fun b hb => ?_⟩
    obtain ⟨p, hp, rfl⟩ := List.mem_map.mp hb
    simp [h2 p hp]

/-- The external register is all ones exactly when at least 32 polls have happened and
the external pin read low on each of the 32 most recent ones. -/
theorem debounce_ext_all_ones (s0 : State) (h0 : s0.debounce_ext = 0)
    (ps : List (Bool × Bool)) :
    (button_polls s0 ps).debounce_ext = 0xFFFFFFFF
      ↔ 32 ≤ ps.length ∧ ∀ p ∈ ps.reverse.take 32, p.2 = false := by
  have hlen : (pressedExt ps).length = ps.length := by simp [pressedExt]
  have htake : (pressedExt ps).take 32 = (ps.reverse.take 32).map (fun p => !p.2) := by
    unfold pressedExt
    rw [List.map_take]
  rw [register_all_ones _ (pressedExt ps) (debounce_ext_testBit s0 h0 ps), hlen, htake]
  constructor
  · rintro ⟨h1, h2⟩
    refine ⟨h1, fun p hp => ?_⟩
    have hb := h2 (!p.2) (List.mem_map_of_mem _ hp)
    simpa using hb
  · rintro ⟨h1, h2⟩
    refine ⟨h1, fun b hb => ?_⟩
    obtain ⟨p, hp, rfl⟩ := List.mem_map.mp hb
    simp [h2 p hp]

/-- The button case of the switch in `handle_read_req`, reached when the selector is
`POWERBOARD_READ_BUTTON`. -/
theorem handle_read_req_button (env : Env) (hwf : env.WellFormed) (s : State)
    (req : usb_setup_data) (hsel : req.wIndex = env.POWERBOARD_READ_BUTTON)
    (len : Int) (buf : Buf) :
    handle_read_req env s req len buf
      = if len < 4 then ⟨USBD_REQ_NOTSUPP, len, buf⟩
        else ⟨USBD_REQ_HANDLED, 4, store32 buf 0 (if button_pressed s then 1 else 0)⟩ := by
  have hnd := hwf.1
  simp only [Env.readLabels, List.nodup_cons, List.mem_cons, List.mem_singleton,
    not_or] at hnd
  obtain ⟨⟨-, -, -, -, -, -, -, h0, -⟩, ⟨-, -, -, -, -, -, h1, -⟩, ⟨-, -, -, -, -, h2, -⟩,
    ⟨-, -, -, -, h3, -⟩, ⟨-, -, -, h4, -⟩, ⟨-, -, h5, -⟩, ⟨-, h6, -⟩, ⟨h7, -⟩, -⟩ := hnd
  unfold handle_read_req
  rw [hsel, if_neg (Ne.symm h0), if_neg (Ne.symm h1), if_neg (Ne.symm h2),
    if_neg (Ne.symm h3), if_neg (Ne.symm h4), if_neg (Ne.symm h5), if_neg (Ne.symm h6),
    if_neg (Ne.symm h7), if_pos rfl]

/-- C19: start with both debounce registers zero and make any sequence of
`button_poll` calls.  Then `button_pressed` is true if and only if at least 32 polls
have happened and one of the two buttons, the internal or the external one, read as
pressed (pin low) on every one of the 32 most recent polls; a `ReadButton` request
with a buffer of at least 4 bytes is handled with response length 4 and the 32-bit
value 1 when `button_pressed` is true and 0 otherwise. -/
theorem debounce_and_read_button (env : Env) (hwf : env.WellFormed) (s0 : State)
    (hint : s0.debounce_int = 0) (hext : s0.debounce_ext = 0) (ps : List (Bool × Bool))
    (req : usb_setup_data) (hsel : req.wIndex = env.POWERBOARD_READ_BUTTON)
    (len : Int) (hlen : 4 ≤ len) (buf : Buf) :
    (button_pressed (button_polls s0 ps) = true
        ↔ 32 ≤ ps.length
          ∧ ((∀ p ∈ ps.reverse.take 32, p.1 = false)
              ∨ (∀ p ∈ ps.reverse.take 32, p.2 = false)))
      ∧ (handle_read_req env (button_polls s0 ps) req len buf).result = USBD_REQ_HANDLED
      ∧ (handle_read_req env (button_polls s0 ps) req len buf).len = 4
      ∧ load32 (handle_read_req env (button_polls s0 ps) req len buf).buf 0
          = (if button_pressed (button_polls s0 ps) then 1 else 0) := by
  refine ⟨?_, ?_⟩
  · have hp : button_pressed (button_polls s0 ps) = true
        ↔ (button_polls s0 ps).debounce_int = 0xFFFFFFFF
          ∨ (button_polls s0 ps).debounce_ext = 0xFFFFFFFF := by
      unfold button_pressed
      split <;> simp_all
    rw [hp, debounce_int_all_ones s0 hint ps, debounce_ext_all_ones s0 hext ps]
    tauto
  · rw [handle_read_req_button env hwf _ req hsel, if_neg (not_lt.mpr hlen)]
    refine ⟨rfl, rfl, ?_⟩
    apply load32_store32
    split <;> norm_num

/-- Witness of C19: after 32 polls with the internal button held and the external one
released, `button_pressed` is true. -/
theorem debounce_and_read_button_witness :
    button_pressed (button_polls init (List.replicate 32 (false, true))) = true :=
  (debounce_and_read_button sampleEnv (by decide) init rfl rfl
    (List.replicate 32 (false, true)) ⟨0x80, 64, 0, 8, 4⟩ rfl 4 (by decide)
    (fun _ => 0)).1.mpr (by decide)

/-- The two debounce registers are separate: 16 polls with only the internal button
held followed by 16 polls with only the external button held have a button pressed on
every poll, and `button_pressed` is false. -/
theorem alternating_buttons_not_pressed :
    button_pressed (button_polls init
        (List.replicate 16 (false, true) ++ List.replicate 16 (true, false))) = false := by
  decide

end PowerBoard
